import Mathlib

/-!
# Video compositor: source registry, build, teardown and reposition

A shallow embedding of `src/video_compositor.c`.

* The C program keeps one global `AppData`; here every function takes the
  current `AppData` and returns the next one.
* A `VideoSource *` is the position of the record in `app_data.sources`
  (the list is only ever appended to, so positions are stable).
* A `GstElement *` / `GstPad *` is `Option String`: `none` is `NULL`, and a
  live element or pad is identified by its name inside the pipeline.
* The media engine (GStreamer) and GLib are external.  Their answers that the
  program cannot predict (does the file exist, can the element be made, does
  the mixer grant the pad, does the link negotiate) are read from an `Env`
  that accompanies each step.  What the engine holds (the children of the
  pipeline bin, the pad links, the request pads of both mixers) is the
  `Engine` record, together with the sequence of engine calls made so far.
* C `int` is `Int`.  The only arithmetic on it is `next_source_id++`; one
  registry record is allocated per increment, so the counter stays far below
  `2^31` in every run that fits in memory and no wrap-around is modelled.
-/

namespace VideoCompositor

/-! ## Data model -/

/-- Return value of an idle callback asking GLib to drop the callback. -/
def G_SOURCE_REMOVE : Bool := false

/-- Return value of an idle callback asking GLib to call it again. -/
def G_SOURCE_CONTINUE : Bool := true

/-- A pad of an element in the pipeline: element name and pad name. -/
structure PadRef where
  element : String
  pad : String
deriving DecidableEq, Repr

/-- A request sink pad of the video mixer with its `xpos` / `ypos` properties. -/
structure MixerPad where
  name : String
  xpos : Int
  ypos : Int
deriving DecidableEq, Repr

/-- The C struct `VideoSource` (lines 8-26). -/
structure VideoSource where
  id : Int
  video_file : String
  source : Option String
  decodebin : Option String
  queue_video : Option String
  videoconvert : Option String
  videoscale : Option String
  capsfilter : Option String
  queue_audio : Option String
  audioconvert : Option String
  audioresample : Option String
  clocksync : Option String
  video_sink_pad : Option String
  audio_sink_pad : Option String
  xpos : Int
  ypos : Int
  active : Bool
deriving DecidableEq, Repr

/-- A callback handed to `g_idle_add` with its `user_data`: the source record
(by position) for `add_source_idle`, the id for `remove_source_idle`, the
`MoveData` (lines 338-342) for `move_source_idle`. -/
inductive IdleTask where
  | add_source (idx : Nat)
  | remove_source (source_id : Int)
  | move_source (source_id : Int) (xpos : Int) (ypos : Int)
deriving DecidableEq, Repr

/-- The engine calls that change the processing graph, as issued by the program. -/
inductive EngineCall where
  | bin_add (element : String)
  | bin_remove (element : String)
  | pad_link (src : Option PadRef) (sink : PadRef)
  | pad_unlink (src : Option PadRef) (sink : PadRef)
  | request_pad (mixer : String) (name : String)
  | release_request_pad (mixer : String) (pad : String)
  | set_position (pad : String) (xpos : Int) (ypos : Int)
deriving DecidableEq, Repr

/-- What the engine holds on behalf of `app_data.pipeline`,
`app_data.videomixer` and `app_data.audiomixer`. -/
structure Engine where
  pipeline : List String
  links : List (PadRef × PadRef)
  videomixer : List MixerPad
  audiomixer : List String
  calls : List EngineCall
deriving DecidableEq, Repr

/-- The C struct `AppData` (lines 28-38).  `idle_queue` is the list of idle
callbacks pending on the default GLib main context. -/
structure AppData where
  engine : Engine
  sources : List VideoSource
  next_source_id : Int
  pipeline_playing : Bool
  idle_queue : List IdleTask
deriving DecidableEq, Repr

/-- Answers of the outside world during one step. -/
structure Env where
  file_exists : String → Bool
  factory_make : String → String → Bool
  request_pad : String → String → Bool
  pad_link : PadRef → PadRef → Bool
  set_state : Bool

/-! ## Formatting (`sprintf`) -/

/-- The conversion `%d` of `sprintf`. -/
def fmt_d : Int → String
  | Int.ofNat m => Nat.repr m
  | Int.negSucc m => "-" ++ Nat.repr (m + 1)

/-- The element name `sprintf(element_name, "<stem>_%d", source->id)`. -/
def element_name (stem : String) (id : Int) : String := stem ++ "_" ++ fmt_d id

/-- The pad name `sprintf(pad_name, "sink_%d", source->id)` (lines 227, 242). -/
def pad_name (id : Int) : String := "sink_" ++ fmt_d id

/-! ## Engine operations -/

/-- The call `gst_element_factory_make(factory, name)`: the new element, or `NULL`. -/
def gst_element_factory_make (env : Env) (factory name : String) : Option String :=
  if env.factory_make factory name then some name else none

/-- The call `gst_bin_add`: a bin refuses a second child of the same name. -/
def gst_bin_add (element : String) (eng : Engine) : Engine :=
  { eng with
    pipeline := if element ∈ eng.pipeline then eng.pipeline else eng.pipeline ++ [element]
    calls := eng.calls ++ [EngineCall.bin_add element] }

/-- The call `gst_bin_add_many(bin, e1, ..., NULL)`: the argument list ends at the
first `NULL`. -/
def gst_bin_add_many : List (Option String) → Engine → Engine
  | [], eng => eng
  | none :: _, eng => eng
  | some e :: rest, eng => gst_bin_add_many rest (gst_bin_add e eng)

/-- The call `gst_element_get_static_pad(element, name)`. -/
def gst_element_get_static_pad (element : Option String) (name : String) : Option PadRef :=
  element.map (fun e => { element := e, pad := name })

/-- The call `gst_pad_is_linked`. -/
def gst_pad_is_linked (p : PadRef) (eng : Engine) : Bool :=
  eng.links.any (fun l => l.1 = p || l.2 = p)

/-- The call `gst_pad_link(src, sink)`: succeeds when both pads exist, neither is
linked yet and the engine can negotiate the link. -/
def gst_pad_link (env : Env) (src : Option PadRef) (sink : PadRef) (eng : Engine) :
    Bool × Engine :=
  let eng := { eng with calls := eng.calls ++ [EngineCall.pad_link src sink] }
  match src with
  | none => (false, eng)
  | some s =>
    if gst_pad_is_linked s eng || gst_pad_is_linked sink eng || !env.pad_link s sink then
      (false, eng)
    else (true, { eng with links := eng.links ++ [(s, sink)] })

/-- The call `gst_element_link(a, b)`: links the `src` pad of `a` to the `sink` pad
of `b`; the program ignores the result. -/
def gst_element_link (env : Env) (a b : Option String) (eng : Engine) : Engine :=
  match b with
  | none => eng
  | some e => (gst_pad_link env (gst_element_get_static_pad a "src")
      { element := e, pad := "sink" } eng).2

/-- The call `gst_pad_unlink(src, sink)`. -/
def gst_pad_unlink (src : Option PadRef) (sink : PadRef) (eng : Engine) : Engine :=
  { eng with
    links := eng.links.filter (fun l => !(some l.1 = src && l.2 = sink))
    calls := eng.calls ++ [EngineCall.pad_unlink src sink] }

/-- The call `gst_element_request_pad_simple(app_data.videomixer, name)`: the new
pad, or `NULL` when the mixer does not grant it or already has a pad of that
name.  A new pad starts at position (0, 0). -/
def request_video_pad (env : Env) (name : String) (eng : Engine) : Option String × Engine :=
  let eng := { eng with calls := eng.calls ++ [EngineCall.request_pad "videomixer" name] }
  if env.request_pad "videomixer" name && !(name ∈ eng.videomixer.map MixerPad.name) then
    (some name, { eng with videomixer := eng.videomixer ++ [{ name := name, xpos := 0, ypos := 0 }] })
  else (none, eng)

/-- The call `gst_element_request_pad_simple(app_data.audiomixer, name)`. -/
def request_audio_pad (env : Env) (name : String) (eng : Engine) : Option String × Engine :=
  let eng := { eng with calls := eng.calls ++ [EngineCall.request_pad "audiomixer" name] }
  if env.request_pad "audiomixer" name && !(name ∈ eng.audiomixer) then
    (some name, { eng with audiomixer := eng.audiomixer ++ [name] })
  else (none, eng)

/-- The call `g_object_set(pad, "xpos", x, "ypos", y, NULL)` on a video mixer pad. -/
def set_position (pad : String) (xpos ypos : Int) (eng : Engine) : Engine :=
  { eng with
    videomixer := eng.videomixer.map
      (fun p => if p.name = pad then { p with xpos := xpos, ypos := ypos } else p)
    calls := eng.calls ++ [EngineCall.set_position pad xpos ypos] }

/-- The call `gst_element_release_request_pad(app_data.videomixer, pad)`. -/
def release_video_pad (pad : String) (eng : Engine) : Engine :=
  { eng with
    videomixer := eng.videomixer.filter (fun p => !(p.name = pad))
    links := eng.links.filter (fun l => !(l.2 = { element := "videomixer", pad := pad }))
    calls := eng.calls ++ [EngineCall.release_request_pad "videomixer" pad] }

/-- The call `gst_element_release_request_pad(app_data.audiomixer, pad)`. -/
def release_audio_pad (pad : String) (eng : Engine) : Engine :=
  { eng with
    audiomixer := eng.audiomixer.filter (fun p => !(p = pad))
    links := eng.links.filter (fun l => !(l.2 = { element := "audiomixer", pad := pad }))
    calls := eng.calls ++ [EngineCall.release_request_pad "audiomixer" pad] }

/-- The call `gst_bin_remove`: the element leaves the bin and its pads are unlinked. -/
def gst_bin_remove (element : String) (eng : Engine) : Engine :=
  { eng with
    pipeline := eng.pipeline.filter (fun e => !(e = element))
    links := eng.links.filter (fun l => !(l.1.element = element || l.2.element = element))
    calls := eng.calls ++ [EngineCall.bin_remove element] }

/-- The call `gst_bin_remove_many(bin, e1, ..., NULL)`: the argument list ends at
the first `NULL`. -/
def gst_bin_remove_many : List (Option String) → Engine → Engine
  | [], eng => eng
  | none :: _, eng => eng
  | some e :: rest, eng => gst_bin_remove_many rest (gst_bin_remove e eng)

/-! ## The program -/

/-- The function `create_video_source_struct` (lines 88-96): `g_malloc0` zeroes every
handle. -/
def create_video_source_struct (id : Int) (video_file : String) (xpos ypos : Int) :
    VideoSource :=
  { id := id, video_file := video_file,
    source := none, decodebin := none, queue_video := none, videoconvert := none,
    videoscale := none, capsfilter := none, queue_audio := none, audioconvert := none,
    audioresample := none, clocksync := none,
    video_sink_pad := none, audio_sink_pad := none,
    xpos := xpos, ypos := ypos, active := false }

/-- Writing through a `VideoSource *`: replaces the record at position `idx`. -/
def store_source (idx : Nat) (source : VideoSource) (app : AppData) : AppData :=
  { app with sources := app.sources.set idx source }

/-- Lines 119-202 of `add_source_idle`: the ten `gst_element_factory_make` calls,
each followed by an early return when the element is `NULL`.  The result says
whether all ten succeeded and gives the record with the handles stored so far. -/
def make_elements (env : Env) (source : VideoSource) : Bool × VideoSource :=
  let source := { source with
    source := gst_element_factory_make env "filesrc" (element_name "source" source.id) }
  if source.source.isNone then (false, source) else
  let source := { source with
    decodebin := gst_element_factory_make env "decodebin" (element_name "decodebin" source.id) }
  if source.decodebin.isNone then (false, source) else
  let source := { source with
    queue_video := gst_element_factory_make env "queue" (element_name "queue_video" source.id) }
  if source.queue_video.isNone then (false, source) else
  let source := { source with
    videoconvert :=
      gst_element_factory_make env "videoconvert" (element_name "videoconvert" source.id) }
  if source.videoconvert.isNone then (false, source) else
  let source := { source with
    videoscale := gst_element_factory_make env "videoscale" (element_name "videoscale" source.id) }
  if source.videoscale.isNone then (false, source) else
  let source := { source with
    capsfilter := gst_element_factory_make env "capsfilter" (element_name "capsfilter" source.id) }
  if source.capsfilter.isNone then (false, source) else
  let source := { source with
    clocksync := gst_element_factory_make env "clocksync" (element_name "clocksync" source.id) }
  if source.clocksync.isNone then (false, source) else
  let source := { source with
    queue_audio := gst_element_factory_make env "queue" (element_name "queue_audio" source.id) }
  if source.queue_audio.isNone then (false, source) else
  let source := { source with
    audioconvert :=
      gst_element_factory_make env "audioconvert" (element_name "audioconvert" source.id) }
  if source.audioconvert.isNone then (false, source) else
  let source := { source with
    audioresample :=
      gst_element_factory_make env "audioresample" (element_name "audioresample" source.id) }
  if source.audioresample.isNone then (false, source) else
  (true, source)

/-- Lines 204-217 of `add_source_idle`: the chain enters the pipeline and its fixed
stages are linked. -/
def insert_chain (env : Env) (source : VideoSource) (eng : Engine) : Engine :=
  let eng := gst_bin_add_many
    [source.source, source.decodebin,
     source.queue_video, source.videoconvert, source.videoscale, source.capsfilter,
     source.clocksync,
     source.queue_audio, source.audioconvert, source.audioresample] eng
  let eng := gst_element_link env source.source source.decodebin eng
  let eng := gst_element_link env source.queue_video source.videoconvert eng
  let eng := gst_element_link env source.videoconvert source.videoscale eng
  let eng := gst_element_link env source.videoscale source.capsfilter eng
  let eng := gst_element_link env source.capsfilter source.clocksync eng
  let eng := gst_element_link env source.queue_audio source.audioconvert eng
  gst_element_link env source.audioconvert source.audioresample eng

/-- Lines 225-239 of `add_source_idle`: request the video mixer pad `sink_<id>`;
when granted, link the chain to it and set its position. -/
def connect_video (env : Env) (source : VideoSource) (eng : Engine) : VideoSource × Engine :=
  let src_pad := gst_element_get_static_pad source.clocksync "src"
  let r := request_video_pad env (pad_name source.id) eng
  let source := { source with video_sink_pad := r.1 }
  match source.video_sink_pad with
  | some pad =>
    (source, set_position pad source.xpos source.ypos
      (gst_pad_link env src_pad { element := "videomixer", pad := pad } r.2).2)
  | none => (source, r.2)

/-- Lines 241-251 of `add_source_idle`: request the audio mixer pad `sink_<id>`;
when granted, link the chain to it. -/
def connect_audio (env : Env) (source : VideoSource) (eng : Engine) : VideoSource × Engine :=
  let src_pad := gst_element_get_static_pad source.audioresample "src"
  let r := request_audio_pad env (pad_name source.id) eng
  let source := { source with audio_sink_pad := r.1 }
  match source.audio_sink_pad with
  | some pad =>
    (source, (gst_pad_link env src_pad { element := "audiomixer", pad := pad } r.2).2)
  | none => (source, r.2)

/-- The function `add_source_idle` (lines 105-275) on the record at position `idx`.
The state of the individual elements (`gst_element_sync_state_with_parent`) and
the `pad-added` subscription are not part of the state. -/
def add_source_idle (env : Env) (idx : Nat) (app : AppData) : Bool × AppData :=
  match app.sources[idx]? with
  | none => (G_SOURCE_REMOVE, app)
  | some source =>
    if env.file_exists source.video_file = false then (G_SOURCE_REMOVE, app) else
    let m := make_elements env source
    if m.1 = false then (G_SOURCE_REMOVE, store_source idx m.2 app) else
    let eng := insert_chain env m.2 app.engine
    let v := connect_video env m.2 eng
    let a := connect_audio env v.1 v.2
    let source := { a.1 with active := true }
    (G_SOURCE_REMOVE, store_source idx source { app with engine := a.2 })

/-- The search loop of `remove_source_idle` and `move_source_idle` (lines 283-289,
351-357): the first record whose id matches, with its position. -/
def find_source : List VideoSource → Int → Option (Nat × VideoSource)
  | [], _ => none
  | s :: rest, source_id =>
    if s.id = source_id then some (0, s)
    else (find_source rest source_id).map (fun r => (r.1 + 1, r.2))

/-- Lines 299-304 of `remove_source_idle`. -/
def drop_video_pad (source : VideoSource) (eng : Engine) : VideoSource × Engine :=
  match source.video_sink_pad with
  | some pad =>
    ({ source with video_sink_pad := none },
      release_video_pad pad
        (gst_pad_unlink (gst_element_get_static_pad source.clocksync "src")
          { element := "videomixer", pad := pad } eng))
  | none => (source, eng)

/-- Lines 306-311 of `remove_source_idle`. -/
def drop_audio_pad (source : VideoSource) (eng : Engine) : VideoSource × Engine :=
  match source.audio_sink_pad with
  | some pad =>
    ({ source with audio_sink_pad := none },
      release_audio_pad pad
        (gst_pad_unlink (gst_element_get_static_pad source.audioresample "src")
          { element := "audiomixer", pad := pad } eng))
  | none => (source, eng)

/-- Lines 320-331 of `remove_source_idle`: the element handles are cleared and the
record is marked inactive. -/
def clear_handles (source : VideoSource) : VideoSource :=
  { source with
    source := none, decodebin := none, queue_video := none, videoconvert := none,
    videoscale := none, capsfilter := none, clocksync := none, queue_audio := none,
    audioconvert := none, audioresample := none, active := false }

/-- The function `remove_source_idle` (lines 277-335). -/
def remove_source_idle (source_id : Int) (app : AppData) : Bool × AppData :=
  match find_source app.sources source_id with
  | none => (G_SOURCE_REMOVE, app)
  | some (idx, source) =>
    if source.active = false then (G_SOURCE_REMOVE, app) else
    let v := drop_video_pad source app.engine
    let a := drop_audio_pad v.1 v.2
    let eng := gst_bin_remove_many
      [a.1.source, a.1.decodebin,
       a.1.queue_video, a.1.videoconvert, a.1.videoscale, a.1.capsfilter, a.1.clocksync,
       a.1.queue_audio, a.1.audioconvert, a.1.audioresample] a.2
    (G_SOURCE_REMOVE, store_source idx (clear_handles a.1) { app with engine := eng })

/-- The function `move_source_idle` (lines 344-374). -/
def move_source_idle (source_id xpos ypos : Int) (app : AppData) : Bool × AppData :=
  match find_source app.sources source_id with
  | none => (G_SOURCE_REMOVE, app)
  | some (idx, source) =>
    if source.active = false then (G_SOURCE_REMOVE, app) else
    match source.video_sink_pad with
    | none => (G_SOURCE_REMOVE, app)
    | some pad =>
      let source := { source with xpos := xpos, ypos := ypos }
      (G_SOURCE_REMOVE,
        store_source idx source
          { app with engine := set_position pad source.xpos source.ypos app.engine })

/-- The call `g_idle_add(callback, user_data)`: the callback joins the pending idle
callbacks behind those already waiting. -/
def g_idle_add (task : IdleTask) (app : AppData) : AppData :=
  { app with idle_queue := app.idle_queue ++ [task] }

/-- The function `add_video_source` (lines 377-388): the returned id and the next state. -/
def add_video_source (env : Env) (video_file : String) (xpos ypos : Int) (app : AppData) :
    Int × AppData :=
  let source := create_video_source_struct app.next_source_id video_file xpos ypos
  let idx := app.sources.length
  let app := { app with
    next_source_id := app.next_source_id + 1
    sources := app.sources ++ [source] }
  let app :=
    if app.pipeline_playing then g_idle_add (IdleTask.add_source idx) app
    else (add_source_idle env idx app).2
  ((app.sources.getD idx source).id, app)

/-- The function `remove_video_source` (lines 390-396). -/
def remove_video_source (source_id : Int) (app : AppData) : AppData :=
  if app.pipeline_playing then g_idle_add (IdleTask.remove_source source_id) app
  else (remove_source_idle source_id app).2

/-- The function `move_video_source` (lines 398-409). -/
def move_video_source (source_id xpos ypos : Int) (app : AppData) : AppData :=
  if app.pipeline_playing then g_idle_add (IdleTask.move_source source_id xpos ypos) app
  else (move_source_idle source_id xpos ypos app).2

/-- One line of `list_sources` (lines 416-418). -/
def source_line (source : VideoSource) : String :=
  "  Source " ++ fmt_d source.id ++ ": " ++ source.video_file ++
    " at (" ++ fmt_d source.xpos ++ ", " ++ fmt_d source.ypos ++ ") - " ++
    (if source.active then "ACTIVE" else "INACTIVE") ++ "\n"

/-- The function `list_sources` (lines 411-420): the text it prints, one string per
`g_print`. -/
def list_sources (app : AppData) : List String :=
  "Active sources:\n" :: app.sources.map source_line

/-! ## The cooperative loop and the bus -/

/-- Running one idle callback on its `user_data`. -/
def run_idle (env : Env) (task : IdleTask) (app : AppData) : Bool × AppData :=
  match task with
  | IdleTask.add_source idx => add_source_idle env idx app
  | IdleTask.remove_source source_id => remove_source_idle source_id app
  | IdleTask.move_source source_id xpos ypos => move_source_idle source_id xpos ypos app

/-- One dispatch of the GLib main context: the oldest pending idle callback is
called; it stays pending (behind the others) only if it returns
`G_SOURCE_CONTINUE`. -/
def dispatch_idle (env : Env) (app : AppData) : AppData :=
  match app.idle_queue with
  | [] => app
  | task :: rest =>
    let r := run_idle env task { app with idle_queue := rest }
    if r.1 = G_SOURCE_CONTINUE then { r.2 with idle_queue := r.2.idle_queue ++ [task] }
    else r.2

/-- The engine states `GstState`. -/
inductive GstState where
  | VOID_PENDING
  | NULL
  | READY
  | PAUSED
  | PLAYING
deriving DecidableEq, Repr

/-- The `GST_MESSAGE_STATE_CHANGED` case of `on_bus_message` (lines 59-70);
`from_pipeline` says whether the message comes from `app_data.pipeline`. -/
def on_state_changed (from_pipeline : Bool) (new_state : GstState) (app : AppData) : AppData :=
  if from_pipeline then { app with pipeline_playing := decide (new_state = GstState.PLAYING) }
  else app

/-- The set-up part of `main` (lines 530-630) up to the pipeline being asked to play:
`none` stands for the early `return -1`. -/
def main_setup (env : Env) : Option AppData :=
  let eng : Engine :=
    { pipeline := [], links := [], videomixer := [], audiomixer := [], calls := [] }
  match gst_element_factory_make env "videomixer" "videomixer" with
  | none => none
  | some videomixer =>
  match gst_element_factory_make env "audiomixer" "audiomixer" with
  | none => none
  | some audiomixer =>
  let video_sink :=
    (gst_element_factory_make env "xvimagesink" "video_sink").orElse fun _ =>
    (gst_element_factory_make env "ximagesink" "video_sink").orElse fun _ =>
    gst_element_factory_make env "autovideosink" "video_sink"
  match video_sink with
  | none => none
  | some video_sink =>
  match gst_element_factory_make env "capsfilter" "mixer_caps" with
  | none => none
  | some mixer_caps =>
  let audio_sink := gst_element_factory_make env "autoaudiosink" "audio_sink"
  let eng :=
    match audio_sink with
    | some audio_sink =>
      gst_element_link env (some audiomixer) (some audio_sink)
        (gst_bin_add_many
          [some videomixer, some mixer_caps, some audiomixer, some video_sink, some audio_sink]
          eng)
    | none =>
      gst_bin_add_many [some videomixer, some mixer_caps, some audiomixer, some video_sink] eng
  let eng := gst_element_link env (some videomixer) (some mixer_caps) eng
  let eng := gst_element_link env (some mixer_caps) (some video_sink) eng
  if env.set_state = false then none
  else some
    { engine := eng, sources := [], next_source_id := 0, pipeline_playing := false,
      idle_queue := [] }

/-- What can happen to the running program: a call of one of the three API
functions, the main context dispatching a pending idle callback, or a
state-change message arriving on the bus. -/
inductive Op where
  | add (env : Env) (video_file : String) (xpos : Int) (ypos : Int)
  | remove (source_id : Int)
  | move (source_id : Int) (xpos : Int) (ypos : Int)
  | idle (env : Env)
  | state_changed (from_pipeline : Bool) (new_state : GstState)

/-- The effect of one `Op` on the state. -/
def step (app : AppData) (op : Op) : AppData :=
  match op with
  | Op.add env video_file xpos ypos => (add_video_source env video_file xpos ypos app).2
  | Op.remove source_id => remove_video_source source_id app
  | Op.move source_id xpos ypos => move_video_source source_id xpos ypos app
  | Op.idle env => dispatch_idle env app
  | Op.state_changed from_pipeline new_state => on_state_changed from_pipeline new_state app

/-- The state after a sequence of operations. -/
def run (ops : List Op) (app : AppData) : AppData := ops.foldl step app

/-- The ids returned by the `add_video_source` calls of a sequence of operations,
in call order. -/
def returned_ids : List Op → AppData → List Int
  | [], _ => []
  | Op.add env video_file xpos ypos :: ops, app =>
    (add_video_source env video_file xpos ypos app).1 ::
      returned_ids ops (add_video_source env video_file xpos ypos app).2
  | op :: ops, app => returned_ids ops (step app op)

/-- An environment in which every file exists and every engine request succeeds. -/
def env_ok : Env :=
  { file_exists := fun _ => true, factory_make := fun _ _ => true,
    request_pad := fun _ _ => true, pad_link := fun _ _ => true, set_state := true }

/-! ## The pad-added callback -/

/-- A pad announced by a decode stage: the element, the pad's name, and the
structure names of its pad template's caps (`none` when the pad has no template
or the template yields no caps, the empty list for caps of size 0). -/
structure NewPad where
  element : String
  name : String
  template_caps : Option (List String)
deriving DecidableEq, Repr

/-- The call `g_str_has_prefix(str, prefix)`. -/
def g_str_has_prefix (str pre : String) : Bool := pre.data.isPrefixOf str.data

/-- The call `g_str_has_suffix(str, suffix)`. -/
def g_str_has_suffix (str suffix : String) : Bool := suffix.data.isSuffixOf str.data

/-- Lines 426-438 of `on_pad_added`: the name of the first structure of the pad
template's caps, when the pad has a template whose caps are not empty. -/
def template_media_type (pad : NewPad) : Option String :=
  match pad.template_caps with
  | some (name :: _) => some name
  | _ => none

/-- Lines 426-450 of `on_pad_added`: the media type read from the pad template's
caps, and when there is none the one guessed from the pad name. -/
def pad_media_type (pad : NewPad) : Option String :=
  match template_media_type pad with
  | some media_type => some media_type
  | none =>
    if g_str_has_suffix pad.name "_0" then some "video/"
    else if g_str_has_suffix pad.name "_1" then some "audio/"
    else none

/-- Lines 454-465 (and 468-479) of `on_pad_added`: the announced pad is linked to
the queue's sink pad unless that sink pad is already linked. -/
def link_to_queue (env : Env) (pad : NewPad) (queue : Option String) (eng : Engine) :
    Engine :=
  match gst_element_get_static_pad queue "sink" with
  | none => eng
  | some sink_pad =>
    if !gst_pad_is_linked sink_pad eng then
      (gst_pad_link env (some { element := pad.element, pad := pad.name }) sink_pad eng).2
    else eng

/-- The function `on_pad_added` (lines 422-483) for the source record at position
`idx`. -/
def on_pad_added (env : Env) (idx : Nat) (pad : NewPad) (app : AppData) : AppData :=
  match app.sources[idx]? with
  | none => app
  | some source =>
    match pad_media_type pad with
    | none => app
    | some media_type =>
      if g_str_has_prefix media_type "video/" then
        { app with engine := link_to_queue env pad source.queue_video app.engine }
      else if g_str_has_prefix media_type "audio/" then
        { app with engine := link_to_queue env pad source.queue_audio app.engine }
      else app

/-! ## The command interface and `main` -/

/-- The C function `isspace` in the "C" locale. -/
def isspace (c : Char) : Bool :=
  c = ' ' || (9 ≤ c.toNat && c.toNat ≤ 13)

/-- A white-space directive of `sscanf`: skips any amount of white space. -/
def skip_space (input : List Char) : List Char := input.dropWhile isspace

/-- Literal characters in a `sscanf` format must match the input exactly. -/
def scan_literal (literal : String) (input : List Char) : Option (List Char) :=
  if literal.data.isPrefixOf input then some (input.drop literal.data.length) else none

/-- The conversion `%s` of `sscanf`: skips white space, then takes the longest
non-empty run of non-space characters. -/
def scan_s (input : List Char) : Option (String × List Char) :=
  let rest := skip_space input
  let word := rest.takeWhile (fun c => !isspace c)
  if word.isEmpty then none
  else some (String.mk word, rest.dropWhile (fun c => !isspace c))

/-- The digits of a `%d` conversion, most significant first. -/
def scan_digits : List Char → Nat → Nat × List Char
  | [], acc => (acc, [])
  | c :: cs, acc =>
    if c.isDigit then scan_digits cs (10 * acc + (c.toNat - 48)) else (acc, c :: cs)

/-- The conversion `%d` of `sscanf`: skips white space, then reads an optional sign
and at least one decimal digit. -/
def scan_d (input : List Char) : Option (Int × List Char) :=
  match skip_space input with
  | [] => none
  | c :: cs =>
    if c.isDigit then
      some (((scan_digits (c :: cs) 0).1 : Int), (scan_digits (c :: cs) 0).2)
    else if c = '-' || c = '+' then
      match cs with
      | [] => none
      | d :: ds =>
        if d.isDigit then
          some ((if c = '-' then -((scan_digits (d :: ds) 0).1 : Int)
                 else ((scan_digits (d :: ds) 0).1 : Int)),
                (scan_digits (d :: ds) 0).2)
        else none
    else none

/-- The test `sscanf(command, "add %s %d %d", video_file, &xpos, &ypos) == 3`
(line 491) with the three values read. -/
def sscanf_add (command : String) : Option (String × Int × Int) :=
  match scan_literal "add" command.data with
  | none => none
  | some r0 =>
    match scan_s r0 with
    | none => none
    | some (video_file, r1) =>
      match scan_d r1 with
      | none => none
      | some (xpos, r2) =>
        match scan_d r2 with
        | none => none
        | some (ypos, _) => some (video_file, xpos, ypos)

/-- The test `sscanf(command, "remove %d", &source_id) == 1` (line 495). -/
def sscanf_remove (command : String) : Option Int :=
  match scan_literal "remove" command.data with
  | none => none
  | some r0 =>
    match scan_d r0 with
    | none => none
    | some (source_id, _) => some source_id

/-- The test `sscanf(command, "move %d %d %d", &source_id, &xpos, &ypos) == 3`
(line 499). -/
def sscanf_move (command : String) : Option (Int × Int × Int) :=
  match scan_literal "move" command.data with
  | none => none
  | some r0 =>
    match scan_d r0 with
    | none => none
    | some (source_id, r1) =>
      match scan_d r1 with
      | none => none
      | some (xpos, r2) =>
        match scan_d r2 with
        | none => none
        | some (ypos, _) => some (source_id, xpos, ypos)

/-- The text printed by the `help` command (lines 507-513). -/
def help_text : List String :=
  ["Available commands:\n",
   "  add <video_file> <xpos> <ypos> - Add a video source\n",
   "  remove <source_id> - Remove a video source\n",
   "  move <source_id> <xpos> <ypos> - Move a video source\n",
   "  list - List all sources\n",
   "  help - Show this help\n",
   "  quit - Exit the application\n"]

/-- The function `process_command` (lines 486-521): the text it prints itself (and
through `list_sources`) and the next state.  The `quit` branch calls
`g_main_loop_quit(app_data.loop)`; that loop is created in `main` and never
run, so the call changes nothing the program reads. -/
def process_command (env : Env) (command : String) (app : AppData) :
    List String × AppData :=
  match sscanf_add command with
  | some (video_file, xpos, ypos) =>
    let r := add_video_source env video_file xpos ypos app
    (["Added source " ++ fmt_d r.1 ++ "\n"], r.2)
  | none =>
    match sscanf_remove command with
    | some source_id =>
      (["Removed source " ++ fmt_d source_id ++ "\n"], remove_video_source source_id app)
    | none =>
      match sscanf_move command with
      | some (source_id, xpos, ypos) =>
        (["Moved source " ++ fmt_d source_id ++ " to (" ++ fmt_d xpos ++ ", " ++
            fmt_d ypos ++ ")\n"],
          move_video_source source_id xpos ypos app)
      | none =>
        if command = "list" then (list_sources app, app)
        else if command = "help" then (help_text, app)
        else if command = "quit" then ([], app)
        else (["Unknown command. Type 'help' for available commands.\n"], app)

/-- The command loop of `main` (lines 645-657).  The input is the sequence of
buffers that the successive `fgets` calls return before end of file, each
with the answers of the outside world while it is processed.  The loop ends
only when `fgets` returns `NULL`. -/
def command_loop : List (Env × String) → AppData → List String × AppData
  | [], app => ([], app)
  | (env, buffer) :: rest, app =>
    let command := String.mk (buffer.data.takeWhile (fun c => !(c = '\n')))
    if command.length > 0 then
      let r := process_command env command app
      let t := command_loop rest r.2
      (r.1 ++ t.1, t.2)
    else command_loop rest app

/-- The loop of `main` over the start-up arguments (lines 636-640); `k` is `i - 1`. -/
def add_initial_sources (env : Env) : List String → Nat → AppData → AppData
  | [], _, app => app
  | file :: rest, k, app =>
    add_initial_sources env rest (k + 1)
      (add_video_source env file (((k % 4 : Nat) : Int) * 320) (((k / 4 : Nat) : Int) * 240)
        app).2

/-- The function `main` (lines 523-670): the exit code, with the text printed by
the commands and the state in which the command loop ended (`none` when the
set-up returned early).  `args` is `argv` without the program name. -/
def main (env : Env) (args : List String) (input : List (Env × String)) :
    Int × Option (List String × AppData) :=
  match main_setup env with
  | none => (-1, none)
  | some app => (0, some (command_loop input (add_initial_sources env args 0 app)))

/-! ## Vocabulary of the statements -/

/-- Value of a decimal digit character. -/
def digit_value (c : Char) : Nat := c.toNat - 48

/-- Value of a string of decimal digits, most significant first. -/
def read_digits (cs : List Char) : Nat :=
  cs.foldl (fun acc c => 10 * acc + digit_value c) 0

/-- The names of the video mixer's request pads. -/
def video_pad_names (eng : Engine) : List String := eng.videomixer.map MixerPad.name

/-- The consistency between the registry, the mixers and the idle queue that every
reachable state has: ids are the positions in the registry, the next id is the
registry's length, a pad held by a record is the mixer's pad `sink_<id>`, only
active records hold pads, pad names are unique inside each mixer, and pending
build callbacks point into the registry. -/
structure WellFormed (app : AppData) : Prop where
  next_id : app.next_source_id = (app.sources.length : Int)
  ids : ∀ (i : Nat) (s : VideoSource), app.sources[i]? = some s → s.id = (i : Int)
  video_pad : ∀ s ∈ app.sources, ∀ p, s.video_sink_pad = some p →
    s.active = true ∧ p = pad_name s.id ∧ p ∈ video_pad_names app.engine
  audio_pad : ∀ s ∈ app.sources, ∀ p, s.audio_sink_pad = some p →
    s.active = true ∧ p = pad_name s.id ∧ p ∈ app.engine.audiomixer
  video_nodup : (video_pad_names app.engine).Nodup
  audio_nodup : app.engine.audiomixer.Nodup
  queue : ∀ idx, IdleTask.add_source idx ∈ app.idle_queue → idx < app.sources.length

/-- The two kinds of stream that `on_pad_added` links. -/
inductive MediaKind where
  | video
  | audio
deriving DecidableEq, Repr

/-- The two-tier classification in the words of the specification: the declared
capability name decides when there is one, whatever the pad is called; the pad
name decides only when there is none. -/
def classify_pad (caps_name : Option String) (name : String) : Option MediaKind :=
  match caps_name with
  | some caps =>
    if g_str_has_prefix caps "video/" then some MediaKind.video
    else if g_str_has_prefix caps "audio/" then some MediaKind.audio
    else none
  | none =>
    if g_str_has_suffix name "_0" then some MediaKind.video
    else if g_str_has_suffix name "_1" then some MediaKind.audio
    else none

/-- Whether a link from `src` to `sink` can be made: neither pad is linked yet and
the engine can negotiate the link. -/
def can_link (env : Env) (src sink : PadRef) (eng : Engine) : Bool :=
  !gst_pad_is_linked sink eng && !gst_pad_is_linked src eng && env.pad_link src sink

/-- The element handles of a record in the order in which `gst_bin_add_many` and
`gst_bin_remove_many` receive them. -/
def chain_handles (s : VideoSource) : List (Option String) :=
  [s.source, s.decodebin, s.queue_video, s.videoconvert, s.videoscale, s.capsfilter,
   s.clocksync, s.queue_audio, s.audioconvert, s.audioresample]

/-- The chain nodes of a record: its handles that are not `NULL`. -/
def chain_nodes (s : VideoSource) : List String := (chain_handles s).filterMap id

/-- The discipline of builds that every reachable state has: an active record has
all ten chain nodes, a pending build callback points at a record that is still
inactive, and no build callback is pending twice. -/
structure BuildDiscipline (app : AppData) : Prop where
  handles : ∀ s ∈ app.sources, s.active = true →
    (chain_handles s).all Option.isSome = true
  pending : ∀ idx, IdleTask.add_source idx ∈ app.idle_queue →
    ∃ s, app.sources[idx]? = some s ∧ s.active = false
  once : ∀ idx, app.idle_queue.count (IdleTask.add_source idx) ≤ 1

/-- The number of `add_video_source` calls in a sequence of operations. -/
def add_count : List Op → Nat
  | [] => 0
  | Op.add _ _ _ _ :: ops => add_count ops + 1
  | _ :: ops => add_count ops

/-! ## Sample runs -/

/-- The state in which `main` starts serving commands when every element can be
made. -/
def app_ready : AppData :=
  { engine :=
      { pipeline := ["videomixer", "mixer_caps", "audiomixer", "video_sink", "audio_sink"]
        links :=
          [({ element := "audiomixer", pad := "src" }, { element := "audio_sink", pad := "sink" }),
           ({ element := "videomixer", pad := "src" }, { element := "mixer_caps", pad := "sink" }),
           ({ element := "mixer_caps", pad := "src" }, { element := "video_sink", pad := "sink" })]
        videomixer := []
        audiomixer := []
        calls :=
          [EngineCall.bin_add "videomixer", EngineCall.bin_add "mixer_caps",
           EngineCall.bin_add "audiomixer", EngineCall.bin_add "video_sink",
           EngineCall.bin_add "audio_sink",
           EngineCall.pad_link (some { element := "audiomixer", pad := "src" })
             { element := "audio_sink", pad := "sink" },
           EngineCall.pad_link (some { element := "videomixer", pad := "src" })
             { element := "mixer_caps", pad := "sink" },
           EngineCall.pad_link (some { element := "mixer_caps", pad := "src" })
             { element := "video_sink", pad := "sink" }] }
    sources := []
    next_source_id := 0
    pipeline_playing := false
    idle_queue := [] }

/-- The scenario `add clip.mp4 0 0`, `add clip2.mp4 320 0`. -/
def two_clips : List Op :=
  [Op.add env_ok "clip.mp4" 0 0, Op.add env_ok "clip2.mp4" 320 0]

/-- Adds interleaved with a remove and a move. -/
def mixed_ops : List Op :=
  [Op.add env_ok "clip.mp4" 0 0, Op.remove 0, Op.add env_ok "clip2.mp4" 320 0,
   Op.move 1 640 240, Op.add env_ok "clip3.mp4" 0 240]

/-- The record of source 0 after `two_clips`. -/
def clip_record : VideoSource :=
  { id := 0, video_file := "clip.mp4",
    source := some "source_0", decodebin := some "decodebin_0",
    queue_video := some "queue_video_0", videoconvert := some "videoconvert_0",
    videoscale := some "videoscale_0", capsfilter := some "capsfilter_0",
    queue_audio := some "queue_audio_0", audioconvert := some "audioconvert_0",
    audioresample := some "audioresample_0", clocksync := some "clocksync_0",
    video_sink_pad := some "sink_0", audio_sink_pad := some "sink_0",
    xpos := 0, ypos := 0, active := true }

/-- The record of source 1 after `two_clips`. -/
def clip2_record : VideoSource :=
  { id := 1, video_file := "clip2.mp4",
    source := some "source_1", decodebin := some "decodebin_1",
    queue_video := some "queue_video_1", videoconvert := some "videoconvert_1",
    videoscale := some "videoscale_1", capsfilter := some "capsfilter_1",
    queue_audio := some "queue_audio_1", audioconvert := some "audioconvert_1",
    audioresample := some "audioresample_1", clocksync := some "clocksync_1",
    video_sink_pad := some "sink_1", audio_sink_pad := some "sink_1",
    xpos := 320, ypos := 0, active := true }

/-- An environment in which no file exists. -/
def env_no_file : Env := { env_ok with file_exists := fun _ => false }

/-- An environment in which the video mixer grants no pad. -/
def env_no_video_pad : Env :=
  { env_ok with request_pad := fun mixer _ => decide (mixer ≠ "videomixer") }

/-- After `add clip.mp4 0 0`, the scenario `add clip2.mp4 320 0` with the video
mixer refusing the pad. -/
def unlinked_ops : List Op :=
  [Op.add env_ok "clip.mp4" 0 0, Op.add env_no_video_pad "clip2.mp4" 320 0]

/-- The record of source 1 after `unlinked_ops`: active, without a video pad. -/
def unlinked_record : VideoSource :=
  { id := 1, video_file := "clip2.mp4",
    source := some "source_1", decodebin := some "decodebin_1",
    queue_video := some "queue_video_1", videoconvert := some "videoconvert_1",
    videoscale := some "videoscale_1", capsfilter := some "capsfilter_1",
    queue_audio := some "queue_audio_1", audioconvert := some "audioconvert_1",
    audioresample := some "audioresample_1", clocksync := some "clocksync_1",
    video_sink_pad := none, audio_sink_pad := some "sink_1",
    xpos := 320, ypos := 0, active := true }

/-- After `add clip.mp4 0 0`, the scenario `add missing.mp4 320 0` for a file that
does not exist. -/
def missing_ops : List Op :=
  [Op.add env_ok "clip.mp4" 0 0, Op.add env_no_file "missing.mp4" 320 0]

/-- The state `app_ready` once the pipeline has reported that it plays. -/
def app_playing : AppData := on_state_changed true GstState.PLAYING app_ready

/-- The input `quit`, then `add clip.mp4 0 0`, then end of file. -/
def quit_then_add : List (Env × String) :=
  [(env_ok, "quit\n"), (env_ok, "add clip.mp4 0 0\n")]

/-- A pad of source 0's decode stage whose template declares raw video. -/
def first_video_pad : NewPad :=
  { element := "decodebin_0", name := "src_0", template_caps := some ["video/x-raw"] }

/-- A second pad of source 0's decode stage that also declares raw video. -/
def second_video_pad : NewPad :=
  { element := "decodebin_0", name := "src_1", template_caps := some ["video/x-raw"] }

/-- The state after `two_clips` once `first_video_pad` has been linked. -/
def app_first_linked : AppData := on_pad_added env_ok 0 first_video_pad (run two_clips app_ready)

/-- The state in which `add_source_idle` runs for source 1 in `unlinked_ops`. -/
def app_before_unlinked : AppData :=
  { run [Op.add env_ok "clip.mp4" 0 0] app_ready with
    next_source_id := 2
    sources := (run [Op.add env_ok "clip.mp4" 0 0] app_ready).sources ++
      [create_video_source_struct 1 "clip2.mp4" 320 0] }

/-- The engine calls made by `remove_source_idle` for source 0 after `two_clips`. -/
def teardown_calls : List EngineCall :=
  [EngineCall.pad_unlink (some { element := "clocksync_0", pad := "src" })
     { element := "videomixer", pad := "sink_0" },
   EngineCall.release_request_pad "videomixer" "sink_0",
   EngineCall.pad_unlink (some { element := "audioresample_0", pad := "src" })
     { element := "audiomixer", pad := "sink_0" },
   EngineCall.release_request_pad "audiomixer" "sink_0",
   EngineCall.bin_remove "source_0", EngineCall.bin_remove "decodebin_0",
   EngineCall.bin_remove "queue_video_0", EngineCall.bin_remove "videoconvert_0",
   EngineCall.bin_remove "videoscale_0", EngineCall.bin_remove "capsfilter_0",
   EngineCall.bin_remove "clocksync_0", EngineCall.bin_remove "queue_audio_0",
   EngineCall.bin_remove "audioconvert_0", EngineCall.bin_remove "audioresample_0"]

end VideoCompositor

namespace VideoCompositor

/-! ## Decimal rendering is injective -/

theorem digit_value_digitChar (k : Nat) (hk : k < 10) :
    digit_value (Nat.digitChar k) = k := by
  interval_cases k <;> rfl

theorem digitChar_ne_minus (k : Nat) (hk : k < 10) : Nat.digitChar k ≠ '-' := by
  interval_cases k <;> decide

theorem toDigitsCore_acc (fuel : Nat) : ∀ (n : Nat) (ds : List Char),
    Nat.toDigitsCore 10 fuel n ds = Nat.toDigitsCore 10 fuel n [] ++ ds := by
  induction fuel with
  | zero => intro n ds; simp [Nat.toDigitsCore]
  | succ f ih =>
    intro n ds
    simp only [Nat.toDigitsCore]
    split
    · simp
    · rw [ih (n / 10) (_ :: ds), ih (n / 10) [_]]
      simp

theorem read_digits_snoc (cs : List Char) (c : Char) :
    read_digits (cs ++ [c]) = 10 * read_digits cs + digit_value c := by
  simp [read_digits, List.foldl_append]

theorem read_toDigitsCore (fuel : Nat) : ∀ n : Nat, n < fuel →
    read_digits (Nat.toDigitsCore 10 fuel n []) = n := by
  induction fuel with
  | zero => intro n h; omega
  | succ f ih =>
    intro n h
    simp only [Nat.toDigitsCore]
    split
    · have : n < 10 := by omega
      simp [read_digits, digit_value_digitChar, Nat.mod_eq_of_lt this, this]
    · rw [toDigitsCore_acc, read_digits_snoc, ih (n / 10) (by omega),
        digit_value_digitChar _ (Nat.mod_lt _ (by decide))]
      omega

theorem head_toDigitsCore (fuel : Nat) : ∀ n : Nat,
    ∃ k, k < 10 ∧ ∃ tl, Nat.toDigitsCore 10 (fuel + 1) n [] = Nat.digitChar k :: tl := by
  induction fuel with
  | zero =>
    intro n
    refine ⟨n % 10, Nat.mod_lt _ (by decide), ?_⟩
    simp only [Nat.toDigitsCore]
    split <;> exact ⟨_, rfl⟩
  | succ f ih =>
    intro n
    rw [Nat.toDigitsCore]
    split
    · exact ⟨n % 10, Nat.mod_lt _ (by decide), [], rfl⟩
    · obtain ⟨k, hk, tl, htl⟩ := ih (n / 10)
      refine ⟨k, hk, tl ++ [Nat.digitChar (n % 10)], ?_⟩
      rw [toDigitsCore_acc, htl]; rfl

theorem read_repr (m : Nat) : read_digits (Nat.repr m).data = m := by
  simp only [Nat.repr, Nat.toDigits, List.asString]
  exact read_toDigitsCore (m + 1) m (Nat.lt_succ_self m)

theorem repr_head (m : Nat) :
    ∃ k, k < 10 ∧ ∃ tl, (Nat.repr m).data = Nat.digitChar k :: tl := by
  simp only [Nat.repr, Nat.toDigits, List.asString]
  exact head_toDigitsCore m m

theorem fmt_d_injective : ∀ a b : Int, fmt_d a = fmt_d b → a = b := by
  intro a b h
  have hd := congrArg String.data h
  cases a with
  | ofNat m =>
    cases b with
    | ofNat k =>
      simp only [fmt_d] at hd
      have := congrArg read_digits hd
      rw [read_repr, read_repr] at this
      rw [this]
    | negSucc k =>
      exfalso
      simp only [fmt_d, String.data_append] at hd
      obtain ⟨d, hd10, tl, htl⟩ := repr_head m
      rw [htl] at hd
      have : Nat.digitChar d = '-' := List.head_eq_of_cons_eq hd
      exact digitChar_ne_minus d hd10 this
  | negSucc m =>
    cases b with
    | ofNat k =>
      exfalso
      simp only [fmt_d, String.data_append] at hd
      obtain ⟨d, hd10, tl, htl⟩ := repr_head k
      rw [htl] at hd
      have : '-' = Nat.digitChar d := List.head_eq_of_cons_eq hd
      exact digitChar_ne_minus d hd10 this.symm
    | negSucc k =>
      simp only [fmt_d, String.data_append] at hd
      have h2 : (Nat.repr (m + 1)).data = (Nat.repr (k + 1)).data :=
        List.tail_eq_of_cons_eq hd
      have := congrArg read_digits h2
      rw [read_repr, read_repr] at this
      have : m = k := by omega
      rw [this]

theorem pad_name_injective (a b : Int) (h : pad_name a = pad_name b) : a = b := by
  apply fmt_d_injective
  have hd := congrArg String.data h
  simp only [pad_name, String.data_append] at hd
  exact String.ext (List.append_cancel_left hd)

/-! ## Engine operations and the mixers -/

@[simp] theorem gst_bin_add_videomixer (e : String) (eng : Engine) :
    (gst_bin_add e eng).videomixer = eng.videomixer := rfl

@[simp] theorem gst_bin_add_audiomixer (e : String) (eng : Engine) :
    (gst_bin_add e eng).audiomixer = eng.audiomixer := rfl

@[simp] theorem gst_bin_add_many_videomixer (es : List (Option String)) :
    ∀ eng : Engine, (gst_bin_add_many es eng).videomixer = eng.videomixer := by
  induction es with
  | nil => intro eng; rfl
  | cons e rest ih =>
    intro eng
    cases e with
    | none => rfl
    | some e => simp [gst_bin_add_many, ih]

@[simp] theorem gst_bin_add_many_audiomixer (es : List (Option String)) :
    ∀ eng : Engine, (gst_bin_add_many es eng).audiomixer = eng.audiomixer := by
  induction es with
  | nil => intro eng; rfl
  | cons e rest ih =>
    intro eng
    cases e with
    | none => rfl
    | some e => simp [gst_bin_add_many, ih]

@[simp] theorem gst_pad_link_videomixer (env : Env) (src : Option PadRef) (sink : PadRef)
    (eng : Engine) : (gst_pad_link env src sink eng).2.videomixer = eng.videomixer := by
  unfold gst_pad_link
  cases src with
  | none => rfl
  | some s => simp only []; split <;> rfl

@[simp] theorem gst_pad_link_audiomixer (env : Env) (src : Option PadRef) (sink : PadRef)
    (eng : Engine) : (gst_pad_link env src sink eng).2.audiomixer = eng.audiomixer := by
  unfold gst_pad_link
  cases src with
  | none => rfl
  | some s => simp only []; split <;> rfl

@[simp] theorem gst_element_link_videomixer (env : Env) (a b : Option String) (eng : Engine) :
    (gst_element_link env a b eng).videomixer = eng.videomixer := by
  cases b <;> simp [gst_element_link]

@[simp] theorem gst_element_link_audiomixer (env : Env) (a b : Option String) (eng : Engine) :
    (gst_element_link env a b eng).audiomixer = eng.audiomixer := by
  cases b <;> simp [gst_element_link]

@[simp] theorem gst_pad_unlink_videomixer (src : Option PadRef) (sink : PadRef) (eng : Engine) :
    (gst_pad_unlink src sink eng).videomixer = eng.videomixer := rfl

@[simp] theorem gst_pad_unlink_audiomixer (src : Option PadRef) (sink : PadRef) (eng : Engine) :
    (gst_pad_unlink src sink eng).audiomixer = eng.audiomixer := rfl

@[simp] theorem gst_bin_remove_many_videomixer (es : List (Option String)) :
    ∀ eng : Engine, (gst_bin_remove_many es eng).videomixer = eng.videomixer := by
  induction es with
  | nil => intro eng; rfl
  | cons e rest ih =>
    intro eng
    cases e with
    | none => rfl
    | some e => simp [gst_bin_remove_many, ih, gst_bin_remove]

@[simp] theorem gst_bin_remove_many_audiomixer (es : List (Option String)) :
    ∀ eng : Engine, (gst_bin_remove_many es eng).audiomixer = eng.audiomixer := by
  induction es with
  | nil => intro eng; rfl
  | cons e rest ih =>
    intro eng
    cases e with
    | none => rfl
    | some e => simp [gst_bin_remove_many, ih, gst_bin_remove]

@[simp] theorem insert_chain_videomixer (env : Env) (s : VideoSource) (eng : Engine) :
    (insert_chain env s eng).videomixer = eng.videomixer := by
  simp [insert_chain]

@[simp] theorem insert_chain_audiomixer (env : Env) (s : VideoSource) (eng : Engine) :
    (insert_chain env s eng).audiomixer = eng.audiomixer := by
  simp [insert_chain]

@[simp] theorem set_position_names (pad : String) (x y : Int) (eng : Engine) :
    video_pad_names (set_position pad x y eng) = video_pad_names eng := by
  simp only [video_pad_names, set_position, List.map_map]
  apply List.map_congr_left
  intro p _
  simp only [Function.comp]
  split <;> rfl

@[simp] theorem set_position_audiomixer (pad : String) (x y : Int) (eng : Engine) :
    (set_position pad x y eng).audiomixer = eng.audiomixer := rfl

theorem request_video_pad_spec (env : Env) (name : String) (eng : Engine) :
    ((request_video_pad env name eng).1 = none ∧
        video_pad_names (request_video_pad env name eng).2 = video_pad_names eng) ∨
    ((request_video_pad env name eng).1 = some name ∧ name ∉ video_pad_names eng ∧
        video_pad_names (request_video_pad env name eng).2 = video_pad_names eng ++ [name]) := by
  unfold request_video_pad
  simp only []
  split
  · rename_i h
    right
    simp only [Bool.and_eq_true, Bool.not_eq_true', decide_eq_false_iff_not] at h
    exact ⟨rfl, h.2, by simp [video_pad_names]⟩
  · left; exact ⟨rfl, rfl⟩

@[simp] theorem request_video_pad_audiomixer (env : Env) (name : String) (eng : Engine) :
    (request_video_pad env name eng).2.audiomixer = eng.audiomixer := by
  unfold request_video_pad
  simp only []
  split <;> rfl

theorem request_audio_pad_spec (env : Env) (name : String) (eng : Engine) :
    ((request_audio_pad env name eng).1 = none ∧
        (request_audio_pad env name eng).2.audiomixer = eng.audiomixer) ∨
    ((request_audio_pad env name eng).1 = some name ∧ name ∉ eng.audiomixer ∧
        (request_audio_pad env name eng).2.audiomixer = eng.audiomixer ++ [name]) := by
  unfold request_audio_pad
  simp only []
  split
  · rename_i h
    right
    simp only [Bool.and_eq_true, Bool.not_eq_true', decide_eq_false_iff_not] at h
    exact ⟨rfl, h.2, rfl⟩
  · left; exact ⟨rfl, rfl⟩

@[simp] theorem request_audio_pad_videomixer (env : Env) (name : String) (eng : Engine) :
    (request_audio_pad env name eng).2.videomixer = eng.videomixer := by
  unfold request_audio_pad
  simp only []
  split <;> rfl

theorem snd_ite_cases {α β : Type} (P : β → Prop) (c : Prop) [Decidable c] (x y : α × β)
    (hx : P x.2) (hy : P y.2) : P (if c then x else y).2 := by
  split <;> assumption

/-- The element constructors only write element handles. -/
theorem make_elements_frame (env : Env) (s : VideoSource) (P : VideoSource → Prop)
    (h : ∀ a b c d e f g h i j : Option String,
      P { s with source := a, decodebin := b, queue_video := c, videoconvert := d,
                 videoscale := e, capsfilter := f, clocksync := g, queue_audio := h,
                 audioconvert := i, audioresample := j }) :
    P (make_elements env s).2 := by
  unfold make_elements
  dsimp only
  repeat (first | apply h | apply snd_ite_cases P)

theorem make_elements_fields (env : Env) (s : VideoSource) :
    (make_elements env s).2.id = s.id ∧ (make_elements env s).2.video_file = s.video_file ∧
    (make_elements env s).2.xpos = s.xpos ∧ (make_elements env s).2.ypos = s.ypos ∧
    (make_elements env s).2.active = s.active ∧
    (make_elements env s).2.video_sink_pad = s.video_sink_pad ∧
    (make_elements env s).2.audio_sink_pad = s.audio_sink_pad := by
  apply make_elements_frame env s
    (fun r => r.id = s.id ∧ r.video_file = s.video_file ∧ r.xpos = s.xpos ∧ r.ypos = s.ypos ∧
      r.active = s.active ∧ r.video_sink_pad = s.video_sink_pad ∧
      r.audio_sink_pad = s.audio_sink_pad)
  intros
  exact ⟨rfl, rfl, rfl, rfl, rfl, rfl, rfl⟩

/-- What `connect_video` does to the record and to the mixers. -/
theorem connect_video_spec (env : Env) (s : VideoSource) (eng : Engine) :
    (connect_video env s eng).1 =
        { s with video_sink_pad := (request_video_pad env (pad_name s.id) eng).1 } ∧
    (connect_video env s eng).2.audiomixer = eng.audiomixer ∧
    video_pad_names (connect_video env s eng).2 =
        video_pad_names (request_video_pad env (pad_name s.id) eng).2 := by
  unfold connect_video
  simp only []
  split
  · refine ⟨rfl, by simp, ?_⟩
    rw [set_position_names]
    simp [video_pad_names]
  · exact ⟨rfl, by simp, rfl⟩

theorem connect_video_fields (env : Env) (s : VideoSource) (eng : Engine) :
    (connect_video env s eng).1.id = s.id ∧
    (connect_video env s eng).1.video_file = s.video_file ∧
    (connect_video env s eng).1.xpos = s.xpos ∧ (connect_video env s eng).1.ypos = s.ypos ∧
    (connect_video env s eng).1.active = s.active ∧
    (connect_video env s eng).1.audio_sink_pad = s.audio_sink_pad ∧
    (connect_video env s eng).1.video_sink_pad =
      (request_video_pad env (pad_name s.id) eng).1 := by
  rw [(connect_video_spec env s eng).1]
  exact ⟨rfl, rfl, rfl, rfl, rfl, rfl, rfl⟩

theorem connect_audio_spec (env : Env) (s : VideoSource) (eng : Engine) :
    (connect_audio env s eng).1 =
        { s with audio_sink_pad := (request_audio_pad env (pad_name s.id) eng).1 } ∧
    (connect_audio env s eng).2.audiomixer =
        (request_audio_pad env (pad_name s.id) eng).2.audiomixer ∧
    (connect_audio env s eng).2.videomixer = eng.videomixer := by
  unfold connect_audio
  simp only []
  split
  · exact ⟨rfl, by simp, by simp⟩
  · exact ⟨rfl, rfl, by simp⟩

theorem connect_audio_fields (env : Env) (s : VideoSource) (eng : Engine) :
    (connect_audio env s eng).1.id = s.id ∧
    (connect_audio env s eng).1.video_file = s.video_file ∧
    (connect_audio env s eng).1.xpos = s.xpos ∧ (connect_audio env s eng).1.ypos = s.ypos ∧
    (connect_audio env s eng).1.active = s.active ∧
    (connect_audio env s eng).1.video_sink_pad = s.video_sink_pad ∧
    (connect_audio env s eng).1.audio_sink_pad =
      (request_audio_pad env (pad_name s.id) eng).1 := by
  rw [(connect_audio_spec env s eng).1]
  exact ⟨rfl, rfl, rfl, rfl, rfl, rfl, rfl⟩

/-- Every outcome of `add_source_idle`: nothing changes (no such record, or the
file does not exist), or an element could not be made and only handles of the
record were written, or the record was built and marked active. -/
theorem add_source_idle_effect (env : Env) (idx : Nat) (app : AppData) :
    ((add_source_idle env idx app).2 = app ∧
      ∀ s, app.sources[idx]? = some s → env.file_exists s.video_file = false) ∨
    ∃ s s' eng', app.sources[idx]? = some s ∧ env.file_exists s.video_file = true ∧
      (add_source_idle env idx app).2 = store_source idx s' { app with engine := eng' } ∧
      s'.id = s.id ∧ s'.video_file = s.video_file ∧ s'.xpos = s.xpos ∧ s'.ypos = s.ypos ∧
      (((make_elements env s).1 = false ∧ s'.active = s.active ∧
          s'.video_sink_pad = s.video_sink_pad ∧ s'.audio_sink_pad = s.audio_sink_pad ∧
          eng' = app.engine) ∨
        ((make_elements env s).1 = true ∧ s'.active = true ∧
          ((s'.video_sink_pad = none ∧ video_pad_names eng' = video_pad_names app.engine) ∨
            (s'.video_sink_pad = some (pad_name s.id) ∧
              pad_name s.id ∉ video_pad_names app.engine ∧
              video_pad_names eng' = video_pad_names app.engine ++ [pad_name s.id])) ∧
          ((s'.audio_sink_pad = none ∧ eng'.audiomixer = app.engine.audiomixer) ∨
            (s'.audio_sink_pad = some (pad_name s.id) ∧
              pad_name s.id ∉ app.engine.audiomixer ∧
              eng'.audiomixer = app.engine.audiomixer ++ [pad_name s.id])))) := by
  unfold add_source_idle
  cases hs : app.sources[idx]? with
  | none => left; exact ⟨rfl, fun t ht => by cases ht⟩
  | some s =>
    dsimp only
    by_cases hf : env.file_exists s.video_file = false
    · left; rw [if_pos hf]
      exact ⟨rfl, fun t ht => by cases ht; exact hf⟩
    · rw [if_neg hf]
      have hf' : env.file_exists s.video_file = true := by simpa using hf
      obtain ⟨hid, hfile, hx, hy, hact, hvp, hap⟩ := make_elements_fields env s
      right
      by_cases hm : (make_elements env s).1 = false
      · rw [if_pos hm]
        exact ⟨s, (make_elements env s).2, app.engine, rfl, hf', rfl, hid, hfile, hx, hy,
          Or.inl ⟨hm, hact, hvp, hap, rfl⟩⟩
      · rw [if_neg hm]
        have hm' : (make_elements env s).1 = true := by simpa using hm
        obtain ⟨vid, vfile, vx, vy, _, _, vvp⟩ := connect_video_fields env (make_elements env s).2
          (insert_chain env (make_elements env s).2 app.engine)
        obtain ⟨_, hv2, hv3⟩ := connect_video_spec env (make_elements env s).2
          (insert_chain env (make_elements env s).2 app.engine)
        have hb1 : video_pad_names (insert_chain env (make_elements env s).2 app.engine) =
            video_pad_names app.engine := by simp [video_pad_names]
        have hb2 : (insert_chain env (make_elements env s).2 app.engine).audiomixer =
            app.engine.audiomixer := by simp
        have hrv := request_video_pad_spec env (pad_name (make_elements env s).2.id)
          (insert_chain env (make_elements env s).2 app.engine)
        generalize insert_chain env (make_elements env s).2 app.engine = e1 at *
        generalize connect_video env (make_elements env s).2 e1 = v at *
        obtain ⟨aid, afile, ax, ay, _, avp, aap⟩ := connect_audio_fields env v.1 v.2
        obtain ⟨_, ha2, ha3⟩ := connect_audio_spec env v.1 v.2
        have hra := request_audio_pad_spec env (pad_name v.1.id) v.2
        generalize connect_audio env v.1 v.2 = a at *
        rw [hid] at vvp hv3 hrv
        rw [vid, hid] at aap ha2 hra
        refine ⟨s, { a.1 with active := true }, a.2, rfl, hf', rfl, ?_, ?_, ?_, ?_,
          Or.inr ⟨hm', rfl, ?_, ?_⟩⟩
        · show a.1.id = s.id
          rw [aid, vid, hid]
        · show a.1.video_file = s.video_file
          rw [afile, vfile, hfile]
        · show a.1.xpos = s.xpos
          rw [ax, vx, hx]
        · show a.1.ypos = s.ypos
          rw [ay, vy, hy]
        · show (a.1.video_sink_pad = none ∧ _) ∨ (a.1.video_sink_pad = some _ ∧ _)
          have hn : video_pad_names a.2 = video_pad_names v.2 := by
            simp only [video_pad_names, ha3]
          rw [avp, vvp, hn, hv3]
          rcases hrv with ⟨h1, h2⟩ | ⟨h1, h2, h3⟩
          · left; exact ⟨h1, by rw [h2, hb1]⟩
          · right; exact ⟨h1, by rw [← hb1]; exact h2, by rw [h3, hb1]⟩
        · show (a.1.audio_sink_pad = none ∧ _) ∨ (a.1.audio_sink_pad = some _ ∧ _)
          rw [aap, ha2]
          rw [hv2, hb2] at hra
          rcases hra with ⟨h1, h2⟩ | ⟨h1, h2, h3⟩
          · left; exact ⟨h1, h2⟩
          · right; exact ⟨h1, h2, h3⟩

theorem add_source_idle_result (env : Env) (idx : Nat) (app : AppData) :
    (add_source_idle env idx app).1 = G_SOURCE_REMOVE := by
  unfold add_source_idle
  split
  · rfl
  · dsimp only
    split_ifs <;> rfl

/-! ## The registry search -/

theorem find_source_some {l : List VideoSource} {id : Int} {i : Nat} {s : VideoSource}
    (h : find_source l id = some (i, s)) : l[i]? = some s ∧ s.id = id := by
  induction l generalizing i with
  | nil => simp [find_source] at h
  | cons a rest ih =>
    unfold find_source at h
    split at h
    · rename_i ha
      simp only [Option.some.injEq, Prod.mk.injEq] at h
      obtain ⟨rfl, rfl⟩ := h
      exact ⟨by simp, ha⟩
    · cases hr : find_source rest id with
      | none => simp [hr] at h
      | some r =>
        obtain ⟨j, t⟩ := r
        simp only [hr, Option.map_some', Option.some.injEq, Prod.mk.injEq] at h
        obtain ⟨rfl, rfl⟩ := h
        have := ih hr
        exact ⟨by simpa using this.1, this.2⟩

theorem find_source_none {l : List VideoSource} {id : Int}
    (h : find_source l id = none) : ∀ s ∈ l, s.id ≠ id := by
  induction l with
  | nil => intro s hs; simp at hs
  | cons a rest ih =>
    unfold find_source at h
    split at h
    · simp at h
    · rename_i ha
      simp only [Option.map_eq_none'] at h
      intro s hs
      rcases List.mem_cons.1 hs with rfl | hs
      · exact ha
      · exact ih h s hs

/-- When ids are the positions in the registry, the search for the id of the
record at position `i` finds that record. -/
theorem find_source_of_ids {l : List VideoSource} {i : Nat} {s : VideoSource}
    (hids : ∀ (j : Nat) (t : VideoSource), l[j]? = some t → t.id = (j : Int))
    (h : l[i]? = some s) : find_source l s.id = some (i, s) := by
  cases hf : find_source l s.id with
  | none =>
    exact absurd rfl (find_source_none hf s (List.getElem?_mem h))
  | some r =>
    obtain ⟨j, t⟩ := r
    obtain ⟨h1, h2⟩ := find_source_some hf
    have e1 := hids j t h1
    have e2 := hids i s h
    have : j = i := by omega
    subst this
    rw [h] at h1
    simp only [Option.some.injEq] at h1
    rw [h1]

/-- Overwriting the found record by one with the same id does not change what the
search finds at that id. -/
theorem find_source_set {l : List VideoSource} {id : Int} {i : Nat} {s s' : VideoSource}
    (h : find_source l id = some (i, s)) (hid : s'.id = s.id) :
    find_source (l.set i s') id = some (i, s') := by
  induction l generalizing i with
  | nil => simp [find_source] at h
  | cons a rest ih =>
    unfold find_source at h
    split at h
    · rename_i ha
      simp only [Option.some.injEq, Prod.mk.injEq] at h
      obtain ⟨rfl, rfl⟩ := h
      simp [find_source, hid, ha]
    · rename_i ha
      cases hr : find_source rest id with
      | none => simp [hr] at h
      | some r =>
        obtain ⟨j, t⟩ := r
        simp only [hr, Option.map_some', Option.some.injEq, Prod.mk.injEq] at h
        obtain ⟨rfl, rfl⟩ := h
        simp [find_source, ha, ih hr]

/-! ## Effect of teardown and reposition -/

theorem drop_video_pad_spec (s : VideoSource) (eng : Engine) :
    (drop_video_pad s eng).1 = { s with video_sink_pad := none } ∧
    (drop_video_pad s eng).2.audiomixer = eng.audiomixer ∧
    (drop_video_pad s eng).2.videomixer =
      eng.videomixer.filter (fun p => !(decide (some p.name = s.video_sink_pad))) := by
  unfold drop_video_pad
  cases h : s.video_sink_pad with
  | none =>
    refine ⟨?_, rfl, ?_⟩
    · cases s; simp_all
    · simp
  | some pad =>
    refine ⟨rfl, rfl, ?_⟩
    simp [release_video_pad]

theorem drop_audio_pad_spec (s : VideoSource) (eng : Engine) :
    (drop_audio_pad s eng).1 = { s with audio_sink_pad := none } ∧
    (drop_audio_pad s eng).2.videomixer = eng.videomixer ∧
    (drop_audio_pad s eng).2.audiomixer =
      eng.audiomixer.filter (fun p => !(decide (some p = s.audio_sink_pad))) := by
  unfold drop_audio_pad
  cases h : s.audio_sink_pad with
  | none =>
    refine ⟨?_, rfl, ?_⟩
    · cases s; simp_all
    · simp
  | some pad =>
    refine ⟨rfl, rfl, ?_⟩
    simp [release_audio_pad]

/-- The record that `remove_source_idle` leaves for a source it tears down. -/
theorem remove_source_idle_active {source_id : Int} {app : AppData} {idx : Nat}
    {s : VideoSource} (hf : find_source app.sources source_id = some (idx, s))
    (ha : s.active = true) :
    ∃ eng', (remove_source_idle source_id app).2 =
        store_source idx
          (clear_handles { s with video_sink_pad := none, audio_sink_pad := none })
          { app with engine := eng' } ∧
      eng'.videomixer =
        app.engine.videomixer.filter (fun p => !(decide (some p.name = s.video_sink_pad))) ∧
      eng'.audiomixer =
        app.engine.audiomixer.filter (fun p => !(decide (some p = s.audio_sink_pad))) := by
  unfold remove_source_idle
  rw [hf]
  dsimp only
  rw [if_neg (by simp [ha])]
  obtain ⟨v1, v2, v3⟩ := drop_video_pad_spec s app.engine
  generalize drop_video_pad s app.engine = v at *
  obtain ⟨a1, a2, a3⟩ := drop_audio_pad_spec v.1 v.2
  generalize drop_audio_pad v.1 v.2 = a at *
  have hrec : clear_handles a.1 =
      clear_handles { s with video_sink_pad := none, audio_sink_pad := none } := by
    rw [a1, v1]
  rw [hrec]
  refine ⟨_, rfl, ?_, ?_⟩
  · rw [gst_bin_remove_many_videomixer, a2, v3]
  · rw [gst_bin_remove_many_audiomixer, a3, v2, v1]

theorem remove_source_idle_unknown {source_id : Int} {app : AppData}
    (hf : find_source app.sources source_id = none) :
    remove_source_idle source_id app = (G_SOURCE_REMOVE, app) := by
  unfold remove_source_idle
  rw [hf]

theorem remove_source_idle_inactive {source_id : Int} {app : AppData} {idx : Nat}
    {s : VideoSource} (hf : find_source app.sources source_id = some (idx, s))
    (ha : s.active = false) :
    remove_source_idle source_id app = (G_SOURCE_REMOVE, app) := by
  unfold remove_source_idle
  rw [hf]
  dsimp only
  rw [if_pos ha]

theorem remove_source_idle_result (source_id : Int) (app : AppData) :
    (remove_source_idle source_id app).1 = G_SOURCE_REMOVE := by
  unfold remove_source_idle
  split
  · rfl
  · dsimp only
    split <;> rfl

theorem move_source_idle_result (source_id xpos ypos : Int) (app : AppData) :
    (move_source_idle source_id xpos ypos app).1 = G_SOURCE_REMOVE := by
  unfold move_source_idle
  split
  · rfl
  · dsimp only
    split
    · rfl
    · split <;> rfl

/-- Every outcome of `move_source_idle`: nothing changes, or the found record is
active and holds a video pad, and both its stored position and the pad move. -/
theorem move_source_idle_effect (source_id xpos ypos : Int) (app : AppData) :
    (move_source_idle source_id xpos ypos app).2 = app ∨
    ∃ idx s pad, find_source app.sources source_id = some (idx, s) ∧ s.active = true ∧
      s.video_sink_pad = some pad ∧
      (move_source_idle source_id xpos ypos app).2 =
        store_source idx { s with xpos := xpos, ypos := ypos }
          { app with engine := set_position pad xpos ypos app.engine } := by
  unfold move_source_idle
  cases hf : find_source app.sources source_id with
  | none => left; rfl
  | some r =>
    obtain ⟨idx, s⟩ := r
    dsimp only
    by_cases ha : s.active = false
    · left; rw [if_pos ha]
    · rw [if_neg ha]
      split
      · left; rfl
      · rename_i pad hp
        right
        exact ⟨idx, s, pad, rfl, by simpa using ha, hp, rfl⟩

/-! ## Reachable states are well formed -/

/-- Replacing one record by a record of the same id, together with a change of the
mixers that keeps every pad not named after that id, keeps the state well
formed, provided the new record's own pads are accounted for. -/
theorem wf_store {app : AppData} {idx : Nat} {s s' : VideoSource} {eng' : Engine}
    (h : WellFormed app) (hs : app.sources[idx]? = some s) (hid : s'.id = s.id)
    (hv : ∀ p, s'.video_sink_pad = some p →
      s'.active = true ∧ p = pad_name s.id ∧ p ∈ video_pad_names eng')
    (ha : ∀ p, s'.audio_sink_pad = some p →
      s'.active = true ∧ p = pad_name s.id ∧ p ∈ eng'.audiomixer)
    (hvk : ∀ p ∈ video_pad_names app.engine, p ≠ pad_name s.id → p ∈ video_pad_names eng')
    (hak : ∀ p ∈ app.engine.audiomixer, p ≠ pad_name s.id → p ∈ eng'.audiomixer)
    (hvn : (video_pad_names eng').Nodup) (han : eng'.audiomixer.Nodup) :
    WellFormed (store_source idx s' { app with engine := eng' }) := by
  have hidx : s.id = (idx : Int) := h.ids idx s hs
  have key : ∀ t ∈ (store_source idx s' { app with engine := eng' }).sources,
      t = s' ∨ (t ∈ app.sources ∧ t.id ≠ s.id) := by
    intro t ht
    obtain ⟨j, hj⟩ := List.getElem?_of_mem ht
    simp only [store_source, List.getElem?_set] at hj
    split at hj
    · split at hj
      · left; simpa using hj.symm
      · simp at hj
    · rename_i hne
      right
      refine ⟨List.getElem?_mem hj, ?_⟩
      rw [h.ids j t hj, hidx]
      omega
  constructor
  · simpa [store_source] using h.next_id
  · intro i t ht
    simp only [store_source, List.getElem?_set] at ht
    split at ht
    · rename_i hi
      split at ht
      · simp only [Option.some.injEq] at ht
        rw [← ht, hid, hidx, hi]
      · simp at ht
    · exact h.ids i t ht
  · intro t ht p hp
    rcases key t ht with rfl | ⟨hm, hne⟩
    · obtain ⟨h1, h2, h3⟩ := hv p hp
      exact ⟨h1, by rw [hid]; exact h2, h3⟩
    · obtain ⟨h1, h2, h3⟩ := h.video_pad t hm p hp
      refine ⟨h1, h2, hvk p h3 ?_⟩
      rw [h2]
      exact fun e => hne (pad_name_injective _ _ e)
  · intro t ht p hp
    rcases key t ht with rfl | ⟨hm, hne⟩
    · obtain ⟨h1, h2, h3⟩ := ha p hp
      exact ⟨h1, by rw [hid]; exact h2, h3⟩
    · obtain ⟨h1, h2, h3⟩ := h.audio_pad t hm p hp
      refine ⟨h1, h2, hak p h3 ?_⟩
      rw [h2]
      exact fun e => hne (pad_name_injective _ _ e)
  · exact hvn
  · exact han
  · intro i hi
    simpa [store_source] using h.queue i hi

theorem wf_add_source_idle {app : AppData} (env : Env) (idx : Nat) (h : WellFormed app) :
    WellFormed (add_source_idle env idx app).2 := by
  rcases add_source_idle_effect env idx app with ⟨he, _⟩ | ⟨s, s', eng', hs, _, he, hid, _, _, _, hc⟩
  · rw [he]; exact h
  · rw [he]
    have hmem : s ∈ app.sources := List.getElem?_mem hs
    rcases hc with ⟨_, hact, hvp, hap, rfl⟩ | ⟨_, hact, hv, ha⟩
    · apply wf_store h hs hid
      · intro p hp
        rw [hvp] at hp; rw [hact]
        exact h.video_pad s hmem p hp
      · intro p hp
        rw [hap] at hp; rw [hact]
        exact h.audio_pad s hmem p hp
      · intro p hp _; exact hp
      · intro p hp _; exact hp
      · exact h.video_nodup
      · exact h.audio_nodup
    · apply wf_store h hs hid
      · intro p hp
        rcases hv with ⟨h1, _⟩ | ⟨h1, _, h3⟩
        · rw [h1] at hp; simp at hp
        · rw [h1] at hp
          simp only [Option.some.injEq] at hp
          subst hp
          exact ⟨hact, rfl, by rw [h3]; simp⟩
      · intro p hp
        rcases ha with ⟨h1, _⟩ | ⟨h1, _, h3⟩
        · rw [h1] at hp; simp at hp
        · rw [h1] at hp
          simp only [Option.some.injEq] at hp
          subst hp
          exact ⟨hact, rfl, by rw [h3]; simp⟩
      · intro p hp _
        rcases hv with ⟨_, h2⟩ | ⟨_, _, h3⟩
        · rw [h2]; exact hp
        · rw [h3]; exact List.mem_append_left _ hp
      · intro p hp _
        rcases ha with ⟨_, h2⟩ | ⟨_, _, h3⟩
        · rw [h2]; exact hp
        · rw [h3]; exact List.mem_append_left _ hp
      · rcases hv with ⟨_, h2⟩ | ⟨_, h2, h3⟩
        · rw [h2]; exact h.video_nodup
        · rw [h3]
          exact List.Nodup.append h.video_nodup (List.nodup_singleton _)
            (by simpa using h2)
      · rcases ha with ⟨_, h2⟩ | ⟨_, h2, h3⟩
        · rw [h2]; exact h.audio_nodup
        · rw [h3]
          exact List.Nodup.append h.audio_nodup (List.nodup_singleton _)
            (by simpa using h2)

theorem wf_remove_source_idle {app : AppData} (source_id : Int) (h : WellFormed app) :
    WellFormed (remove_source_idle source_id app).2 := by
  cases hf : find_source app.sources source_id with
  | none => rw [remove_source_idle_unknown hf]; exact h
  | some r =>
    obtain ⟨idx, s⟩ := r
    cases hact : s.active with
    | false => rw [remove_source_idle_inactive hf hact]; exact h
    | true =>
      obtain ⟨eng', he, hv, ha⟩ := remove_source_idle_active hf hact
      obtain ⟨hs, _⟩ := find_source_some hf
      have hmem : s ∈ app.sources := List.getElem?_mem hs
      rw [he]
      apply wf_store h hs
      · rfl
      · intro p hp; simp [clear_handles] at hp
      · intro p hp; simp [clear_handles] at hp
      · intro p hp hne
        simp only [video_pad_names, hv, List.mem_map, List.mem_filter] at hp ⊢
        obtain ⟨q, hq, rfl⟩ := hp
        refine ⟨q, ⟨hq, ?_⟩, rfl⟩
        simp only [Bool.not_eq_true', decide_eq_false_iff_not]
        intro e
        exact hne (h.video_pad s hmem q.name e.symm).2.1
      · intro p hp hne
        simp only [ha, List.mem_filter]
        refine ⟨hp, ?_⟩
        simp only [Bool.not_eq_true', decide_eq_false_iff_not]
        intro e
        exact hne (h.audio_pad s hmem p e.symm).2.1
      · simp only [video_pad_names, hv]
        exact List.Nodup.sublist (List.Sublist.map _ (List.filter_sublist _)) h.video_nodup
      · rw [ha]
        exact List.Nodup.sublist (List.filter_sublist _) h.audio_nodup

theorem wf_move_source_idle {app : AppData} (source_id xpos ypos : Int) (h : WellFormed app) :
    WellFormed (move_source_idle source_id xpos ypos app).2 := by
  rcases move_source_idle_effect source_id xpos ypos app with he | ⟨idx, s, pad, hf, _, _, he⟩
  · rw [he]; exact h
  · rw [he]
    obtain ⟨hs, _⟩ := find_source_some hf
    have hmem : s ∈ app.sources := List.getElem?_mem hs
    apply wf_store h hs
    · rfl
    · intro p hp
      rw [set_position_names]
      exact h.video_pad s hmem p hp
    · intro p hp
      exact h.audio_pad s hmem p hp
    · intro p hp _; rw [set_position_names]; exact hp
    · intro p hp _; exact hp
    · rw [set_position_names]; exact h.video_nodup
    · exact h.audio_nodup

/-! ## What the idle callbacks leave alone -/

theorem add_source_idle_frame (env : Env) (idx : Nat) (app : AppData) :
    (add_source_idle env idx app).2.idle_queue = app.idle_queue ∧
    (add_source_idle env idx app).2.next_source_id = app.next_source_id ∧
    (add_source_idle env idx app).2.pipeline_playing = app.pipeline_playing ∧
    (add_source_idle env idx app).2.sources.length = app.sources.length := by
  rcases add_source_idle_effect env idx app with ⟨he, _⟩ | ⟨s, s', eng', _, _, he, _⟩
  · rw [he]; exact ⟨rfl, rfl, rfl, rfl⟩
  · rw [he]; exact ⟨rfl, rfl, rfl, by simp [store_source]⟩

theorem remove_source_idle_frame (source_id : Int) (app : AppData) :
    (remove_source_idle source_id app).2.idle_queue = app.idle_queue ∧
    (remove_source_idle source_id app).2.next_source_id = app.next_source_id ∧
    (remove_source_idle source_id app).2.pipeline_playing = app.pipeline_playing ∧
    (remove_source_idle source_id app).2.sources.length = app.sources.length := by
  cases hf : find_source app.sources source_id with
  | none => rw [remove_source_idle_unknown hf]; exact ⟨rfl, rfl, rfl, rfl⟩
  | some r =>
    obtain ⟨idx, s⟩ := r
    cases hact : s.active with
    | false => rw [remove_source_idle_inactive hf hact]; exact ⟨rfl, rfl, rfl, rfl⟩
    | true =>
      obtain ⟨eng', he, _, _⟩ := remove_source_idle_active hf hact
      rw [he]; exact ⟨rfl, rfl, rfl, by simp [store_source]⟩

theorem move_source_idle_frame (source_id xpos ypos : Int) (app : AppData) :
    (move_source_idle source_id xpos ypos app).2.idle_queue = app.idle_queue ∧
    (move_source_idle source_id xpos ypos app).2.next_source_id = app.next_source_id ∧
    (move_source_idle source_id xpos ypos app).2.pipeline_playing = app.pipeline_playing ∧
    (move_source_idle source_id xpos ypos app).2.sources.length = app.sources.length := by
  rcases move_source_idle_effect source_id xpos ypos app with he | ⟨idx, s, pad, _, _, _, he⟩
  · rw [he]; exact ⟨rfl, rfl, rfl, rfl⟩
  · rw [he]; exact ⟨rfl, rfl, rfl, by simp [store_source]⟩

theorem run_idle_result (env : Env) (task : IdleTask) (app : AppData) :
    (run_idle env task app).1 = G_SOURCE_REMOVE := by
  cases task with
  | add_source idx => exact add_source_idle_result env idx app
  | remove_source id => exact remove_source_idle_result id app
  | move_source id x y => exact move_source_idle_result id x y app

theorem run_idle_frame (env : Env) (task : IdleTask) (app : AppData) :
    (run_idle env task app).2.idle_queue = app.idle_queue ∧
    (run_idle env task app).2.next_source_id = app.next_source_id ∧
    (run_idle env task app).2.pipeline_playing = app.pipeline_playing ∧
    (run_idle env task app).2.sources.length = app.sources.length := by
  cases task with
  | add_source idx => exact add_source_idle_frame env idx app
  | remove_source id => exact remove_source_idle_frame id app
  | move_source id x y => exact move_source_idle_frame id x y app

/-- A dispatch with a pending callback runs the oldest one and drops it. -/
theorem dispatch_idle_cons (env : Env) {app : AppData} {task : IdleTask} {rest : List IdleTask}
    (h : app.idle_queue = task :: rest) :
    dispatch_idle env app = (run_idle env task { app with idle_queue := rest }).2 := by
  unfold dispatch_idle
  rw [h]
  dsimp only
  rw [if_neg]
  rw [run_idle_result]
  decide

theorem dispatch_idle_nil (env : Env) {app : AppData} (h : app.idle_queue = []) :
    dispatch_idle env app = app := by
  unfold dispatch_idle
  rw [h]

/-! ## The API functions -/

theorem add_video_source_playing (env : Env) (video_file : String) (xpos ypos : Int)
    {app : AppData} (h : app.pipeline_playing = true) :
    add_video_source env video_file xpos ypos app =
      (app.next_source_id,
        { app with
          next_source_id := app.next_source_id + 1
          sources := app.sources ++
            [create_video_source_struct app.next_source_id video_file xpos ypos]
          idle_queue := app.idle_queue ++ [IdleTask.add_source app.sources.length] }) := by
  unfold add_video_source
  simp [h, g_idle_add, create_video_source_struct, List.getD_eq_getElem?_getD]

theorem add_video_source_not_playing (env : Env) (video_file : String) (xpos ypos : Int)
    {app : AppData} (h : app.pipeline_playing = false) :
    (add_video_source env video_file xpos ypos app).2 =
      (add_source_idle env app.sources.length
        { app with
          next_source_id := app.next_source_id + 1
          sources := app.sources ++
            [create_video_source_struct app.next_source_id video_file xpos ypos] }).2 := by
  unfold add_video_source
  dsimp only
  rw [if_neg (by simp [h])]

/-- The id returned by `add_video_source` is the value of the counter at the call. -/
theorem add_video_source_id (env : Env) (video_file : String) (xpos ypos : Int)
    (app : AppData) :
    (add_video_source env video_file xpos ypos app).1 = app.next_source_id := by
  cases hp : app.pipeline_playing with
  | true => rw [add_video_source_playing env video_file xpos ypos hp]
  | false =>
    unfold add_video_source
    dsimp only
    rw [if_neg (by simp [hp])]
    have hget : ({ app with
          next_source_id := app.next_source_id + 1
          sources := app.sources ++
            [create_video_source_struct app.next_source_id video_file xpos ypos] } :
        AppData).sources[app.sources.length]? =
        some (create_video_source_struct app.next_source_id video_file xpos ypos) := by
      simp
    rcases add_source_idle_effect env app.sources.length
      { app with
        next_source_id := app.next_source_id + 1
        sources := app.sources ++
          [create_video_source_struct app.next_source_id video_file xpos ypos] } with
      ⟨he, _⟩ | ⟨s, s', eng', hs, _, he, hid, _⟩
    · rw [he]
      simp [List.getD_eq_getElem?_getD, create_video_source_struct]
    · rw [he]
      rw [hget] at hs
      simp only [Option.some.injEq] at hs
      subst hs
      simp [store_source, List.getD_eq_getElem?_getD, hid, create_video_source_struct]

theorem add_video_source_next (env : Env) (video_file : String) (xpos ypos : Int)
    (app : AppData) :
    (add_video_source env video_file xpos ypos app).2.next_source_id =
      app.next_source_id + 1 := by
  cases hp : app.pipeline_playing with
  | true => rw [add_video_source_playing env video_file xpos ypos hp]
  | false =>
    rw [add_video_source_not_playing env video_file xpos ypos hp,
      (add_source_idle_frame env _ _).2.1]

theorem step_next_source_id (app : AppData) (op : Op) :
    (step app op).next_source_id =
      app.next_source_id + (add_count [op] : Int) := by
  cases op with
  | add env f x y => simp [step, add_count, add_video_source_next]
  | remove id =>
    simp only [step, remove_video_source, add_count]
    split
    · simp [g_idle_add]
    · simp [(remove_source_idle_frame id app).2.1]
  | move id x y =>
    simp only [step, move_video_source, add_count]
    split
    · simp [g_idle_add]
    · simp [(move_source_idle_frame id x y app).2.1]
  | idle env =>
    simp only [step, add_count]
    cases hq : app.idle_queue with
    | nil => rw [dispatch_idle_nil env hq]; simp
    | cons t rest =>
      rw [dispatch_idle_cons env hq, (run_idle_frame env t _).2.1]; simp
  | state_changed fp st =>
    simp only [step, on_state_changed, add_count]
    split <;> simp

/-- The ids returned by a sequence of operations count up from the counter's value
at its start. -/
theorem returned_ids_eq (ops : List Op) : ∀ app : AppData,
    returned_ids ops app =
      (List.range (add_count ops)).map (fun (k : Nat) => app.next_source_id + (k : Int)) := by
  induction ops with
  | nil => intro app; rfl
  | cons op ops ih =>
    intro app
    cases op with
    | add env f x y =>
      simp only [returned_ids, add_count, ih, add_video_source_id, add_video_source_next]
      rw [List.range_succ_eq_map]
      simp only [List.map_cons, List.map_map, Nat.cast_zero, add_zero, List.cons.injEq,
        true_and]
      apply List.map_congr_left
      intro k _
      show app.next_source_id + 1 + (k : Int) = app.next_source_id + ((k + 1 : Nat) : Int)
      push_cast
      omega
    | remove id =>
      have := step_next_source_id app (Op.remove id)
      simp only [returned_ids, add_count, ih, this]
      simp
    | move id x y =>
      have := step_next_source_id app (Op.move id x y)
      simp only [returned_ids, add_count, ih, this]
      simp
    | idle env =>
      have := step_next_source_id app (Op.idle env)
      simp only [returned_ids, add_count, ih, this]
      simp
    | state_changed fp st =>
      have := step_next_source_id app (Op.state_changed fp st)
      simp only [returned_ids, add_count, ih, this]
      simp

theorem wf_idle_queue {app : AppData} {q : List IdleTask} (h : WellFormed app)
    (hq : ∀ idx, IdleTask.add_source idx ∈ q → idx < app.sources.length) :
    WellFormed { app with idle_queue := q } :=
  { next_id := h.next_id, ids := h.ids, video_pad := h.video_pad, audio_pad := h.audio_pad,
    video_nodup := h.video_nodup, audio_nodup := h.audio_nodup, queue := hq }

/-- Appending the fresh record keeps the state well formed. -/
theorem wf_append {app : AppData} (video_file : String) (xpos ypos : Int)
    (h : WellFormed app) :
    WellFormed { app with
      next_source_id := app.next_source_id + 1
      sources := app.sources ++
        [create_video_source_struct app.next_source_id video_file xpos ypos] } := by
  constructor
  · simp only [List.length_append, List.length_singleton, Nat.cast_add, Nat.cast_one]
    rw [h.next_id]
  · intro i t ht
    simp only [List.getElem?_append] at ht
    split at ht
    · exact h.ids i t ht
    · rename_i hi
      have : i - app.sources.length = 0 := by
        by_contra hne
        have : ([create_video_source_struct app.next_source_id video_file xpos ypos])[
            i - app.sources.length]? = none := by
          apply List.getElem?_eq_none
          simp only [List.length_singleton]
          omega
        rw [this] at ht
        simp at ht
      rw [this] at ht
      simp only [List.getElem?_cons_zero, Option.some.injEq] at ht
      rw [← ht]
      simp only [create_video_source_struct, h.next_id]
      have : app.sources.length ≤ i := by omega
      omega
  · intro t ht p hp
    rcases List.mem_append.1 ht with ht | ht
    · exact h.video_pad t ht p hp
    · simp only [List.mem_singleton] at ht
      subst ht
      simp [create_video_source_struct] at hp
  · intro t ht p hp
    rcases List.mem_append.1 ht with ht | ht
    · exact h.audio_pad t ht p hp
    · simp only [List.mem_singleton] at ht
      subst ht
      simp [create_video_source_struct] at hp
  · exact h.video_nodup
  · exact h.audio_nodup
  · intro i hi
    have := h.queue i hi
    simp only [List.length_append, List.length_singleton]
    omega

theorem wf_add_video_source {app : AppData} (env : Env) (video_file : String)
    (xpos ypos : Int) (h : WellFormed app) :
    WellFormed (add_video_source env video_file xpos ypos app).2 := by
  cases hp : app.pipeline_playing with
  | true =>
    rw [add_video_source_playing env video_file xpos ypos hp]
    have h1 := wf_append video_file xpos ypos h
    apply wf_idle_queue h1
    intro i hi
    simp only [List.length_append, List.length_singleton]
    rcases List.mem_append.1 hi with hi | hi
    · have := h.queue i hi; omega
    · simp only [List.mem_singleton, IdleTask.add_source.injEq] at hi
      omega
  | false =>
    rw [add_video_source_not_playing env video_file xpos ypos hp]
    exact wf_add_source_idle env _ (wf_append video_file xpos ypos h)

theorem wf_g_idle_add {app : AppData} {task : IdleTask} (h : WellFormed app)
    (ht : ∀ idx, task = IdleTask.add_source idx → idx < app.sources.length) :
    WellFormed (g_idle_add task app) := by
  apply wf_idle_queue h
  intro i hi
  rcases List.mem_append.1 hi with hi | hi
  · exact h.queue i hi
  · simp only [List.mem_singleton] at hi
    exact ht i hi.symm

theorem wf_run_idle {app : AppData} (env : Env) (task : IdleTask) (h : WellFormed app) :
    WellFormed (run_idle env task app).2 := by
  cases task with
  | add_source idx => exact wf_add_source_idle env idx h
  | remove_source id => exact wf_remove_source_idle id h
  | move_source id x y => exact wf_move_source_idle id x y h

theorem wf_step {app : AppData} (op : Op) (h : WellFormed app) : WellFormed (step app op) := by
  cases op with
  | add env f x y => exact wf_add_video_source env f x y h
  | remove id =>
    simp only [step, remove_video_source]
    split
    · exact wf_g_idle_add h (fun _ e => by cases e)
    · exact wf_remove_source_idle id h
  | move id x y =>
    simp only [step, move_video_source]
    split
    · exact wf_g_idle_add h (fun _ e => by cases e)
    · exact wf_move_source_idle id x y h
  | idle env =>
    simp only [step]
    cases hq : app.idle_queue with
    | nil => rw [dispatch_idle_nil env hq]; exact h
    | cons t rest =>
      rw [dispatch_idle_cons env hq]
      apply wf_run_idle
      apply wf_idle_queue h
      intro i hi
      exact h.queue i (by rw [hq]; exact List.mem_cons_of_mem _ hi)
  | state_changed fp st =>
    simp only [step, on_state_changed]
    split
    · exact { next_id := h.next_id, ids := h.ids, video_pad := h.video_pad,
              audio_pad := h.audio_pad, video_nodup := h.video_nodup,
              audio_nodup := h.audio_nodup, queue := h.queue }
    · exact h

theorem wf_run (ops : List Op) : ∀ {app : AppData}, WellFormed app → WellFormed (run ops app) := by
  induction ops with
  | nil => intro app h; exact h
  | cons op ops ih => intro app h; exact ih (wf_step op h)

/-- The state in which `main` starts serving commands. -/
theorem main_setup_initial {env : Env} {app : AppData} (h : main_setup env = some app) :
    app.sources = [] ∧ app.next_source_id = 0 ∧ app.pipeline_playing = false ∧
    app.idle_queue = [] ∧ app.engine.videomixer = [] ∧ app.engine.audiomixer = [] := by
  unfold main_setup at h
  dsimp only at h
  split at h
  · simp at h
  · split at h
    · simp at h
    · split at h
      · simp at h
      · split at h
        · simp at h
        · split at h
          · simp at h
          · simp only [Option.some.injEq] at h
            subst h
            refine ⟨rfl, rfl, rfl, rfl, ?_, ?_⟩
            · simp only [gst_element_link_videomixer]
              split <;> simp
            · simp only [gst_element_link_audiomixer]
              split <;> simp

theorem wf_main_setup {env : Env} {app : AppData} (h : main_setup env = some app) :
    WellFormed app := by
  obtain ⟨h1, h2, _, h4, h5, h6⟩ := main_setup_initial h
  constructor
  · rw [h1, h2]; rfl
  · intro i s hs; rw [h1] at hs; simp at hs
  · intro s hs; rw [h1] at hs; simp at hs
  · intro s hs; rw [h1] at hs; simp at hs
  · simp [video_pad_names, h5]
  · simp [h6]
  · intro i hi; rw [h4] at hi; simp at hi

/-- Every state reachable from the state set up by `main` is well formed. -/
theorem wf_reachable {env : Env} {app : AppData} (h : main_setup env = some app)
    (ops : List Op) : WellFormed (run ops app) :=
  wf_run ops (wf_main_setup h)

theorem run_next_source_id (ops : List Op) : ∀ app : AppData,
    (run ops app).next_source_id = app.next_source_id + (add_count ops : Int) := by
  induction ops with
  | nil => intro app; simp [run, add_count]
  | cons op ops ih =>
    intro app
    have h1 := ih (step app op)
    have h2 := step_next_source_id app op
    simp only [run, List.foldl_cons] at h1 ⊢
    rw [h1, h2]
    cases op <;> simp only [add_count] <;> push_cast <;> omega

/-- Filtering out the one element with a given key shortens the list by one. -/
theorem length_filter_key {α β : Type} [DecidableEq β] (f : α → β) (b : β) :
    ∀ l : List α, (l.map f).Nodup → b ∈ l.map f →
      (l.filter (fun x => !(decide (some (f x) = some b)))).length + 1 = l.length := by
  intro l
  induction l with
  | nil => intro _ hm; simp at hm
  | cons a rest ih =>
    intro hn hm
    simp only [List.map_cons, List.nodup_cons] at hn
    by_cases hab : f a = b
    · have hnot : b ∉ rest.map f := hab ▸ hn.1
      have hall : rest.filter (fun x => !(decide (some (f x) = some b))) = rest := by
        apply List.filter_eq_self.2
        intro x hx
        simp only [Option.some.injEq, Bool.not_eq_true', decide_eq_false_iff_not]
        intro e
        exact hnot (e ▸ List.mem_map_of_mem f hx)
      rw [List.filter_cons, hall]
      simp [hab]
    · have hm' : b ∈ rest.map f := by
        simp only [List.map_cons, List.mem_cons] at hm
        rcases hm with e | e
        · exact absurd e.symm hab
        · exact e
      have := ih hn.2 hm'
      simp only [List.filter_cons, Option.some.injEq, hab, decide_False, Bool.not_false,
        if_true, List.length_cons]
      simpa using this

theorem filter_key_none {α β : Type} [DecidableEq β] (f : α → β) (l : List α) :
    l.filter (fun x => !(decide (some (f x) = (none : Option β)))) = l := by
  apply List.filter_eq_self.2
  intro x _
  simp

/-! ## The claims -/

/-- C1: from the state set up by `main` (counter 0), whatever sequence of add,
remove, move, idle-dispatch and bus events runs, the ids returned by the
`add_video_source` calls are 0, 1, 2, ... in call order: the n-th call returns
n, the ids are strictly increasing and pairwise distinct, and the counter ends
at the number of adds, so the other operations never change the next id. -/
theorem add_returns_consecutive_ids (env0 : Env) (app0 : AppData) (ops : List Op)
    (h0 : main_setup env0 = some app0) :
    returned_ids ops app0 = (List.range (add_count ops)).map (fun (n : Nat) => (n : Int)) ∧
    (∀ n : Nat, n < add_count ops → (returned_ids ops app0)[n]? = some (n : Int)) ∧
    (returned_ids ops app0).Pairwise (fun a b => a < b) ∧
    (returned_ids ops app0).Nodup ∧
    (run ops app0).next_source_id = (add_count ops : Int) := by
  obtain ⟨_, hn, _⟩ := main_setup_initial h0
  have heq : returned_ids ops app0 =
      (List.range (add_count ops)).map (fun (n : Nat) => (n : Int)) := by
    rw [returned_ids_eq, hn]
    simp
  have hpw : (returned_ids ops app0).Pairwise (fun a b => a < b) := by
    rw [heq, List.pairwise_map]
    exact (List.pairwise_lt_range _).imp (fun h => by exact_mod_cast h)
  refine ⟨heq, ?_, hpw, ?_, ?_⟩
  · intro n hlt
    rw [heq]
    simp [List.getElem?_map, List.getElem?_range hlt]
  · exact hpw.imp (fun h => ne_of_lt h)
  · rw [run_next_source_id, hn]; simp

theorem add_returns_consecutive_ids_witness :
    main_setup env_ok = some app_ready ∧
    returned_ids mixed_ops app_ready = [0, 1, 2] := by
  have h0 : main_setup env_ok = some app_ready := by decide
  refine ⟨h0, ?_⟩
  have h := (add_returns_consecutive_ids env_ok app_ready mixed_ops h0).1
  rw [h]
  decide

/-- C2: in every state reachable from the state set up by `main`, two distinct
records that are both active never hold a video mixer pad of the same name, nor
an audio mixer pad of the same name: a held pad is named `sink_<id>` after its
record's id, distinct records have distinct ids, and distinct ids give distinct
pad names. -/
theorem active_pads_have_distinct_names (env0 : Env) (app0 : AppData) (ops : List Op)
    (h0 : main_setup env0 = some app0) (i j : Nat) (si sj : VideoSource)
    (hi : (run ops app0).sources[i]? = some si) (hj : (run ops app0).sources[j]? = some sj)
    (hij : i ≠ j) (_hai : si.active = true) (_haj : sj.active = true) :
    (∀ p, si.video_sink_pad = some p → p = pad_name si.id ∧ sj.video_sink_pad ≠ some p) ∧
    (∀ p, si.audio_sink_pad = some p → p = pad_name si.id ∧ sj.audio_sink_pad ≠ some p) ∧
    si.id ≠ sj.id ∧
    (∀ a b : Int, a ≠ b → pad_name a ≠ pad_name b) := by
  have wf := wf_reachable h0 ops
  have hmi : si ∈ (run ops app0).sources := List.getElem?_mem hi
  have hmj : sj ∈ (run ops app0).sources := List.getElem?_mem hj
  have hid : si.id ≠ sj.id := by
    rw [wf.ids i si hi, wf.ids j sj hj]
    omega
  refine ⟨?_, ?_, hid, fun a b hab e => hab (pad_name_injective a b e)⟩
  · intro p hp
    have h1 := (wf.video_pad si hmi p hp).2.1
    refine ⟨h1, fun hq => ?_⟩
    have h2 := (wf.video_pad sj hmj p hq).2.1
    exact hid (pad_name_injective _ _ (h1.symm.trans h2))
  · intro p hp
    have h1 := (wf.audio_pad si hmi p hp).2.1
    refine ⟨h1, fun hq => ?_⟩
    have h2 := (wf.audio_pad sj hmj p hq).2.1
    exact hid (pad_name_injective _ _ (h1.symm.trans h2))

theorem active_pads_have_distinct_names_witness :
    (run two_clips app_ready).sources[0]? = some clip_record ∧
    (run two_clips app_ready).sources[1]? = some clip2_record ∧
    "sink_0" = pad_name clip_record.id ∧
    clip2_record.video_sink_pad ≠ some "sink_0" ∧
    clip2_record.audio_sink_pad ≠ some "sink_0" ∧
    pad_name 0 ≠ pad_name 1 := by
  have h := active_pads_have_distinct_names env_ok app_ready two_clips (by decide) 0 1
    clip_record clip2_record (by decide) (by decide) (by decide) (by decide) (by decide)
  exact ⟨by decide, by decide, (h.1 "sink_0" rfl).1, (h.1 "sink_0" rfl).2,
    (h.2.1 "sink_0" rfl).2, h.2.2.2 0 1 (by decide)⟩

theorem find_source_eq_none {l : List VideoSource} {id : Int}
    (h : ∀ s ∈ l, s.id ≠ id) : find_source l id = none := by
  cases hf : find_source l id with
  | none => rfl
  | some r =>
    obtain ⟨h1, h2⟩ := find_source_some (i := r.1) (s := r.2) hf
    exact absurd h2 (h r.2 (List.getElem?_mem h1))

/-- C3: in every reachable state, tearing down an active source by its id takes
out of each mixer exactly the pad that this source held: the mixer keeps all
other pads, its pad count drops by one if the source held a pad on it and is
unchanged otherwise, every other record is left as it was with the pads it
holds still on the mixers, and the removed source holds no pad afterwards. -/
theorem remove_releases_exactly_own_pads (env0 : Env) (app0 : AppData) (ops : List Op)
    (h0 : main_setup env0 = some app0) (app app' : AppData) (happ : app = run ops app0)
    (idx : Nat) (s : VideoSource) (hs : app.sources[idx]? = some s) (ha : s.active = true)
    (happ' : app' = (remove_source_idle s.id app).2) :
    app'.engine.videomixer =
      app.engine.videomixer.filter (fun p => !(decide (some p.name = s.video_sink_pad))) ∧
    app'.engine.audiomixer =
      app.engine.audiomixer.filter (fun p => !(decide (some p = s.audio_sink_pad))) ∧
    app'.engine.videomixer.length + (if s.video_sink_pad.isSome then 1 else 0) =
      app.engine.videomixer.length ∧
    app'.engine.audiomixer.length + (if s.audio_sink_pad.isSome then 1 else 0) =
      app.engine.audiomixer.length ∧
    (∀ (j : Nat) (t : VideoSource), j ≠ idx → app.sources[j]? = some t →
      app'.sources[j]? = some t ∧
      (∀ p, t.video_sink_pad = some p → p ∈ video_pad_names app'.engine) ∧
      (∀ p, t.audio_sink_pad = some p → p ∈ app'.engine.audiomixer)) ∧
    (∃ s', app'.sources[idx]? = some s' ∧
      s'.video_sink_pad = none ∧ s'.audio_sink_pad = none) := by
  have wf : WellFormed app := happ ▸ wf_reachable h0 ops
  have wf' : WellFormed app' := happ' ▸ wf_remove_source_idle s.id wf
  have hmem : s ∈ app.sources := List.getElem?_mem hs
  have hf := find_source_of_ids wf.ids hs
  obtain ⟨eng', he, hv, hau⟩ := remove_source_idle_active hf ha
  rw [he] at happ'
  have hlt : idx < app.sources.length := by
    rcases Nat.lt_or_ge idx app.sources.length with h | h
    · exact h
    · rw [List.getElem?_eq_none h] at hs; simp at hs
  have hsrc : app'.sources = app.sources.set idx
      (clear_handles { s with video_sink_pad := none, audio_sink_pad := none }) := by
    rw [happ']; rfl
  have heng : app'.engine = eng' := by rw [happ']; rfl
  rw [heng]
  refine ⟨hv, hau, ?_, ?_, ?_, ?_⟩
  · rw [hv]
    cases hp : s.video_sink_pad with
    | none => simp
    | some p =>
      have := length_filter_key MixerPad.name p app.engine.videomixer wf.video_nodup
        (wf.video_pad s hmem p hp).2.2
      simpa using this
  · rw [hau]
    cases hp : s.audio_sink_pad with
    | none => simp
    | some p =>
      have := length_filter_key (fun x : String => x) p app.engine.audiomixer
        (by simpa using wf.audio_nodup) (by simpa using (wf.audio_pad s hmem p hp).2.2)
      simpa using this
  · intro j t hj ht
    have hjt : app'.sources[j]? = some t := by
      rw [hsrc, List.getElem?_set_ne (Ne.symm hj)]; exact ht
    have hm' : t ∈ app'.sources := List.getElem?_mem hjt
    refine ⟨hjt, ?_, ?_⟩
    · intro p hp
      have := (wf'.video_pad t hm' p hp).2.2
      rwa [heng] at this
    · intro p hp
      have := (wf'.audio_pad t hm' p hp).2.2
      rwa [heng] at this
  · refine ⟨clear_handles { s with video_sink_pad := none, audio_sink_pad := none },
      ?_, rfl, rfl⟩
    rw [hsrc, List.getElem?_set_eq_of_lt _ hlt]

theorem remove_releases_exactly_own_pads_witness :
    (remove_source_idle 0 (run two_clips app_ready)).2.engine.videomixer =
      [{ name := "sink_1", xpos := 320, ypos := 0 }] ∧
    (remove_source_idle 0 (run two_clips app_ready)).2.engine.audiomixer = ["sink_1"] ∧
    (remove_source_idle 0 (run two_clips app_ready)).2.engine.videomixer.length + 1 =
      (run two_clips app_ready).engine.videomixer.length := by
  have h := remove_releases_exactly_own_pads env_ok app_ready two_clips (by decide)
    (run two_clips app_ready) (remove_source_idle 0 (run two_clips app_ready)).2 rfl
    0 clip_record (by decide) (by decide) rfl
  refine ⟨?_, ?_, ?_⟩
  · rw [h.1]; decide
  · rw [h.2.1]; decide
  · exact h.2.2.1

/-- C4: on an id that no record has, or whose record (the first with that id) is
inactive, `remove_source_idle` returns the state unchanged in every component;
and for every state and id, removing the same id twice gives the same state as
removing it once. -/
theorem remove_unknown_or_inactive_is_noop (app : AppData) (source_id : Int) :
    (((∀ s ∈ app.sources, s.id ≠ source_id) ∨
        (∃ idx s, find_source app.sources source_id = some (idx, s) ∧ s.active = false)) →
      remove_source_idle source_id app = (G_SOURCE_REMOVE, app)) ∧
    (remove_source_idle source_id (remove_source_idle source_id app).2).2 =
      (remove_source_idle source_id app).2 := by
  constructor
  · rintro (h | ⟨idx, s, hf, ha⟩)
    · exact remove_source_idle_unknown (find_source_eq_none h)
    · exact remove_source_idle_inactive hf ha
  · cases hf : find_source app.sources source_id with
    | none => rw [remove_source_idle_unknown hf, remove_source_idle_unknown hf]
    | some r =>
      obtain ⟨idx, s⟩ := r
      cases hact : s.active with
      | false =>
        rw [remove_source_idle_inactive hf hact, remove_source_idle_inactive hf hact]
      | true =>
        obtain ⟨eng', he, _, _⟩ := remove_source_idle_active hf hact
        rw [he]
        have hf' : find_source
            (store_source idx
              (clear_handles { s with video_sink_pad := none, audio_sink_pad := none })
              { app with engine := eng' }).sources source_id =
            some (idx, clear_handles { s with video_sink_pad := none, audio_sink_pad := none }) :=
          find_source_set hf rfl
        rw [remove_source_idle_inactive hf' rfl]

theorem remove_unknown_or_inactive_is_noop_witness :
    remove_source_idle 7 (run two_clips app_ready) =
      (G_SOURCE_REMOVE, run two_clips app_ready) ∧
    (remove_source_idle 0 (remove_source_idle 0 (run two_clips app_ready)).2).2 =
      (remove_source_idle 0 (run two_clips app_ready)).2 :=
  ⟨(remove_unknown_or_inactive_is_noop (run two_clips app_ready) 7).1
      (Or.inl (by decide)),
    (remove_unknown_or_inactive_is_noop (run two_clips app_ready) 0).2⟩

/-- C5: on an id that no record has, or whose record is inactive or holds no video
mixer pad, `move_source_idle` returns the state unchanged for every x and y; in
particular no mixer pad's xpos or ypos and no stored position changes. -/
theorem move_unknown_inactive_or_unlinked_is_noop (app : AppData)
    (source_id xpos ypos : Int)
    (h : (∀ s ∈ app.sources, s.id ≠ source_id) ∨
      (∃ idx s, find_source app.sources source_id = some (idx, s) ∧
        (s.active = false ∨ s.video_sink_pad = none))) :
    move_source_idle source_id xpos ypos app = (G_SOURCE_REMOVE, app) ∧
    (move_source_idle source_id xpos ypos app).2.engine.videomixer = app.engine.videomixer ∧
    (move_source_idle source_id xpos ypos app).2.sources.map (fun s => (s.xpos, s.ypos)) =
      app.sources.map (fun s => (s.xpos, s.ypos)) := by
  have key : move_source_idle source_id xpos ypos app = (G_SOURCE_REMOVE, app) := by
    unfold move_source_idle
    rcases h with h | ⟨idx, s, hf, hc⟩
    · rw [find_source_eq_none h]
    · rw [hf]
      dsimp only
      rcases hc with hc | hc
      · rw [if_pos hc]
      · split
        · rfl
        · rw [hc]
  rw [key]
  exact ⟨rfl, rfl, rfl⟩

theorem move_unknown_inactive_or_unlinked_is_noop_witness :
    move_source_idle 0 640 240 (remove_source_idle 0 (run two_clips app_ready)).2 =
      (G_SOURCE_REMOVE, (remove_source_idle 0 (run two_clips app_ready)).2) :=
  (move_unknown_inactive_or_unlinked_is_noop
    (remove_source_idle 0 (run two_clips app_ready)).2 0 640 240
    (Or.inr ⟨0, clear_handles { clip_record with video_sink_pad := none, audio_sink_pad := none },
      by decide, Or.inl (by decide)⟩)).1

/-! ## Records that stay as they are -/

theorem add_source_idle_other (env : Env) (idx : Nat) (app : AppData) {k : Nat}
    (hk : idx ≠ k) :
    (add_source_idle env idx app).2.sources[k]? = app.sources[k]? := by
  rcases add_source_idle_effect env idx app with ⟨he, _⟩ | ⟨s, s', eng', _, _, he, _⟩
  · rw [he]
  · rw [he]
    simp only [store_source]
    exact List.getElem?_set_ne hk

/-- A build whose file does not exist changes nothing. -/
theorem add_source_idle_missing (env : Env) {idx : Nat} {app : AppData} {s : VideoSource}
    (hs : app.sources[idx]? = some s) (hf : env.file_exists s.video_file = false) :
    (add_source_idle env idx app).2 = app := by
  rcases add_source_idle_effect env idx app with ⟨he, _⟩ | ⟨s0, _, _, hs0, hf0, _⟩
  · exact he
  · rw [hs] at hs0
    simp only [Option.some.injEq] at hs0
    subst hs0
    rw [hf] at hf0
    cases hf0

theorem remove_source_idle_inactive_record (source_id : Int) {app : AppData} {k : Nat}
    {s : VideoSource} (hs : app.sources[k]? = some s) (hact : s.active = false) :
    (remove_source_idle source_id app).2.sources[k]? = some s := by
  cases hf : find_source app.sources source_id with
  | none => rw [remove_source_idle_unknown hf]; exact hs
  | some r =>
    obtain ⟨idx, t⟩ := r
    cases ht : t.active with
    | false => rw [remove_source_idle_inactive hf ht]; exact hs
    | true =>
      obtain ⟨eng', he, _, _⟩ := remove_source_idle_active hf ht
      rw [he]
      have hne : idx ≠ k := by
        rintro rfl
        rw [(find_source_some hf).1] at hs
        simp only [Option.some.injEq] at hs
        subst hs
        rw [hact] at ht
        cases ht
      simp only [store_source]
      rw [List.getElem?_set_ne hne]
      exact hs

theorem move_source_idle_inactive_record (source_id xpos ypos : Int) {app : AppData}
    {k : Nat} {s : VideoSource} (hs : app.sources[k]? = some s) (hact : s.active = false) :
    (move_source_idle source_id xpos ypos app).2.sources[k]? = some s := by
  rcases move_source_idle_effect source_id xpos ypos app with he | ⟨idx, t, pad, hf, ht, _, he⟩
  · rw [he]; exact hs
  · rw [he]
    have hne : idx ≠ k := by
      rintro rfl
      rw [(find_source_some hf).1] at hs
      simp only [Option.some.injEq] at hs
      subst hs
      rw [hact] at ht
      cases ht
    simp only [store_source]
    rw [List.getElem?_set_ne hne]
    exact hs

/-- One operation leaves an inactive record untouched, as long as no build of that
record is pending or the build would find its file missing; and it never makes
a build of an existing record pending. -/
theorem step_keeps_inactive_record {app : AppData} {k : Nat} {s : VideoSource} (op : Op)
    (hs : app.sources[k]? = some s) (hact : s.active = false)
    (hq : IdleTask.add_source k ∉ app.idle_queue ∨
      ∀ e, op = Op.idle e → e.file_exists s.video_file = false) :
    (step app op).sources[k]? = some s ∧
    (IdleTask.add_source k ∉ app.idle_queue →
      IdleTask.add_source k ∉ (step app op).idle_queue) := by
  have hlt : k < app.sources.length := by
    rcases Nat.lt_or_ge k app.sources.length with h | h
    · exact h
    · rw [List.getElem?_eq_none h] at hs; simp at hs
  cases op with
  | add env f x y =>
    simp only [step]
    cases hp : app.pipeline_playing with
    | true =>
      rw [add_video_source_playing env f x y hp]
      refine ⟨?_, ?_⟩
      · simp only [List.getElem?_append_left hlt]; exact hs
      · intro hn hm
        rcases List.mem_append.1 hm with hm | hm
        · exact hn hm
        · simp only [List.mem_singleton, IdleTask.add_source.injEq] at hm
          omega
    | false =>
      rw [add_video_source_not_playing env f x y hp]
      refine ⟨?_, ?_⟩
      · rw [add_source_idle_other env _ _ (Nat.ne_of_gt hlt)]
        simp only [List.getElem?_append_left hlt]; exact hs
      · intro hn
        rw [(add_source_idle_frame env _ _).1]
        exact hn
  | remove id =>
    simp only [step, remove_video_source]
    split
    · refine ⟨hs, fun hn hm => ?_⟩
      rcases List.mem_append.1 hm with hm | hm
      · exact hn hm
      · simp at hm
    · refine ⟨remove_source_idle_inactive_record id hs hact, fun hn => ?_⟩
      rw [(remove_source_idle_frame id app).1]; exact hn
  | move id x y =>
    simp only [step, move_video_source]
    split
    · refine ⟨hs, fun hn hm => ?_⟩
      rcases List.mem_append.1 hm with hm | hm
      · exact hn hm
      · simp at hm
    · refine ⟨move_source_idle_inactive_record id x y hs hact, fun hn => ?_⟩
      rw [(move_source_idle_frame id x y app).1]; exact hn
  | idle env =>
    simp only [step]
    cases hqueue : app.idle_queue with
    | nil =>
      rw [dispatch_idle_nil env hqueue]
      exact ⟨hs, fun _ => by rw [hqueue]; simp⟩
    | cons t rest =>
      rw [dispatch_idle_cons env hqueue]
      refine ⟨?_, fun hn => ?_⟩
      · cases t with
        | add_source i =>
          simp only [run_idle]
          by_cases hik : i = k
          · subst hik
            rcases hq with hq | hq
            · exact absurd (by rw [hqueue]; exact List.mem_cons_self _ _) hq
            · rw [@add_source_idle_missing env i { app with idle_queue := rest } s hs
                (hq env rfl)]
              exact hs
          · rw [add_source_idle_other env i _ hik]; exact hs
        | remove_source id =>
          exact @remove_source_idle_inactive_record id { app with idle_queue := rest } k s
            hs hact
        | move_source id x y =>
          exact @move_source_idle_inactive_record id x y { app with idle_queue := rest } k s
            hs hact
      · rw [(run_idle_frame env t _).1]
        intro hm
        exact hn (List.mem_cons_of_mem _ hm)
  | state_changed fp st =>
    simp only [step, on_state_changed]
    split
    · exact ⟨hs, fun hn => hn⟩
    · exact ⟨hs, fun hn => hn⟩

theorem run_keeps_inactive_record (ops : List Op) : ∀ {app : AppData} {k : Nat}
    {s : VideoSource}, app.sources[k]? = some s → s.active = false →
    (IdleTask.add_source k ∉ app.idle_queue ∨
      ∀ e, Op.idle e ∈ ops → e.file_exists s.video_file = false) →
    (run ops app).sources[k]? = some s := by
  induction ops with
  | nil => intro app k s hs _ _; exact hs
  | cons op ops ih =>
    intro app k s hs hact hq
    have hstep := step_keeps_inactive_record op hs hact
      (hq.imp id (fun h e he => h e (by rw [he]; exact List.mem_cons_self _ _)))
    show (run ops (step app op)).sources[k]? = some s
    apply ih hstep.1 hact
    rcases hq with hq | hq
    · exact Or.inl (hstep.2 hq)
    · exact Or.inr (fun e he => hq e (List.mem_cons_of_mem _ he))

/-- C6: when the file of the locator does not exist, `add_video_source` still
appends a record for it, carrying the returned id, and `list_sources` shows it;
in every state reached afterwards by any sequence of operations that record is
still the inactive record that was appended.  When the call went through the
idle queue, this is for runs in which the file is still missing whenever a
pending callback is dispatched. -/
theorem failed_locator_is_listed_never_active (env0 : Env) (app0 : AppData)
    (ops1 : List Op) (h0 : main_setup env0 = some app0)
    (env : Env) (video_file : String) (xpos ypos : Int)
    (hmiss : env.file_exists video_file = false)
    (app app1 : AppData) (id : Int) (happ : app = run ops1 app0)
    (hadd : add_video_source env video_file xpos ypos app = (id, app1))
    (ops2 : List Op)
    (hlater : app.pipeline_playing = false ∨
      ∀ e, Op.idle e ∈ ops2 → e.file_exists video_file = false) :
    app1.sources = app.sources ++ [create_video_source_struct id video_file xpos ypos] ∧
    (run ops2 app1).sources[app.sources.length]? =
      some (create_video_source_struct id video_file xpos ypos) ∧
    source_line (create_video_source_struct id video_file xpos ypos) ∈
      list_sources (run ops2 app1) ∧
    (∀ s, (run ops2 app1).sources[app.sources.length]? = some s →
      s.id = id ∧ s.video_file = video_file ∧ s.active = false) := by
  have wf : WellFormed app := happ ▸ wf_reachable h0 ops1
  have hid : id = app.next_source_id := by
    have := add_video_source_id env video_file xpos ypos app
    rw [hadd] at this
    exact this
  subst hid
  have happ1 : app1 = (add_video_source env video_file xpos ypos app).2 := by rw [hadd]
  have hget : ∀ q : List IdleTask, ({ app with
        next_source_id := app.next_source_id + 1
        sources := app.sources ++ [create_video_source_struct app.next_source_id video_file xpos ypos]
        idle_queue := q } : AppData).sources[app.sources.length]? =
      some (create_video_source_struct app.next_source_id video_file xpos ypos) := by
    intro q; simp
  have hsrc : app1.sources =
      app.sources ++ [create_video_source_struct app.next_source_id video_file xpos ypos] ∧
      (app.pipeline_playing = false → IdleTask.add_source app.sources.length ∉ app1.idle_queue) := by
    cases hp : app.pipeline_playing with
    | true =>
      rw [happ1, add_video_source_playing env video_file xpos ypos hp]
      exact ⟨rfl, fun h => by cases h⟩
    | false =>
      rw [happ1, add_video_source_not_playing env video_file xpos ypos hp,
        add_source_idle_missing env (hget app.idle_queue) hmiss]
      exact ⟨rfl, fun _ hm => Nat.lt_irrefl _ (wf.queue _ hm)⟩
  have hk : app1.sources[app.sources.length]? =
      some (create_video_source_struct app.next_source_id video_file xpos ypos) := by
    rw [hsrc.1]; simp
  have hrun : (run ops2 app1).sources[app.sources.length]? =
      some (create_video_source_struct app.next_source_id video_file xpos ypos) := by
    apply run_keeps_inactive_record ops2 hk rfl
    rcases hlater with h | h
    · exact Or.inl (hsrc.2 h)
    · exact Or.inr h
  refine ⟨hsrc.1, hrun, ?_, ?_⟩
  · simp only [list_sources]
    exact List.mem_cons_of_mem _ (List.mem_map_of_mem _ (List.getElem?_mem hrun))
  · intro s hs
    rw [hrun] at hs
    simp only [Option.some.injEq] at hs
    subst hs
    exact ⟨rfl, rfl, rfl⟩

theorem failed_locator_is_listed_never_active_witness :
    env_no_file.file_exists "missing.mp4" = false ∧
    (run [Op.remove 0, Op.move 0 5 5, Op.add env_ok "clip.mp4" 0 0]
        (add_video_source env_no_file "missing.mp4" 0 0 app_ready).2).sources[0]? =
      some (create_video_source_struct 0 "missing.mp4" 0 0) ∧
    "  Source 0: missing.mp4 at (0, 0) - INACTIVE\n" ∈
      list_sources (run [Op.remove 0, Op.move 0 5 5, Op.add env_ok "clip.mp4" 0 0]
        (add_video_source env_no_file "missing.mp4" 0 0 app_ready).2) := by
  have h := failed_locator_is_listed_never_active env_ok app_ready [] (by decide)
    env_no_file "missing.mp4" 0 0 (by decide) app_ready
    (add_video_source env_no_file "missing.mp4" 0 0 app_ready).2 0 rfl (by decide)
    [Op.remove 0, Op.move 0 5 5, Op.add env_ok "clip.mp4" 0 0] (Or.inl (by decide))
  exact ⟨by decide, h.2.1, h.2.2.1⟩

/-! ## Successful builds -/

theorem make_elements_ok (env : Env) (s : VideoSource)
    (h : ∀ factory name, env.factory_make factory name = true) :
    (make_elements env s).1 = true := by
  unfold make_elements
  simp [gst_element_factory_make, h]

/-- A build whose file exists and whose elements can all be made marks the record
active and keeps its id, locator and position. -/
theorem add_source_idle_built (env : Env) {idx : Nat} {app : AppData} {s : VideoSource}
    (hs : app.sources[idx]? = some s) (hf : env.file_exists s.video_file = true)
    (hm : (make_elements env s).1 = true) :
    ∃ s' eng', (add_source_idle env idx app).2 =
        store_source idx s' { app with engine := eng' } ∧
      s'.id = s.id ∧ s'.video_file = s.video_file ∧ s'.xpos = s.xpos ∧ s'.ypos = s.ypos ∧
      s'.active = true := by
  rcases add_source_idle_effect env idx app with
    ⟨_, h2⟩ | ⟨s0, s', eng', hs0, _, he, hid, hfile, hx, hy, hc⟩
  · rw [h2 s hs] at hf; cases hf
  · rw [hs] at hs0
    simp only [Option.some.injEq] at hs0
    subst hs0
    rcases hc with ⟨hm0, _⟩ | ⟨_, hact, _⟩
    · rw [hm] at hm0; cases hm0
    · exact ⟨s', eng', he, hid, hfile, hx, hy, hact⟩

theorem add_video_source_built (env : Env) (video_file : String) (xpos ypos : Int)
    {app : AppData} (hp : app.pipeline_playing = false)
    (hf : env.file_exists video_file = true)
    (hm : ∀ factory name, env.factory_make factory name = true) :
    ∃ s, (add_video_source env video_file xpos ypos app).2.sources = app.sources ++ [s] ∧
      s.id = app.next_source_id ∧ s.video_file = video_file ∧ s.xpos = xpos ∧
      s.ypos = ypos ∧ s.active = true := by
  rw [add_video_source_not_playing env video_file xpos ypos hp]
  have hget : ({ app with
        next_source_id := app.next_source_id + 1
        sources := app.sources ++
          [create_video_source_struct app.next_source_id video_file xpos ypos] } :
      AppData).sources[app.sources.length]? =
      some (create_video_source_struct app.next_source_id video_file xpos ypos) := by
    simp
  obtain ⟨s', eng', he, hid, hfile, hx, hy, hact⟩ :=
    add_source_idle_built env hget hf (make_elements_ok env _ hm)
  refine ⟨s', ?_, hid, hfile, hx, hy, hact⟩
  rw [he]
  simp [store_source]

/-- C7: from the state set up by `main`, when both files exist and every element
can be made, `add f0 x0 y0` then `add f1 x1 y1` return the ids 0 and 1 and
`list_sources` prints exactly two entries in this order: source 0 with locator
f0 at (x0, y0) ACTIVE, and source 1 with locator f1 at (x1, y1) ACTIVE. -/
theorem two_adds_then_list (env0 : Env) (app0 : AppData) (h0 : main_setup env0 = some app0)
    (e0 e1 : Env) (f0 f1 : String) (x0 y0 x1 y1 : Int)
    (hf0 : e0.file_exists f0 = true) (hf1 : e1.file_exists f1 = true)
    (hm0 : ∀ factory name, e0.factory_make factory name = true)
    (hm1 : ∀ factory name, e1.factory_make factory name = true) :
    returned_ids [Op.add e0 f0 x0 y0, Op.add e1 f1 x1 y1] app0 = [0, 1] ∧
    list_sources (run [Op.add e0 f0 x0 y0, Op.add e1 f1 x1 y1] app0) =
      ["Active sources:\n",
       "  Source 0: " ++ f0 ++ " at (" ++ fmt_d x0 ++ ", " ++ fmt_d y0 ++ ") - ACTIVE\n",
       "  Source 1: " ++ f1 ++ " at (" ++ fmt_d x1 ++ ", " ++ fmt_d y1 ++ ") - ACTIVE\n"] ∧
    (∃ s0 s1, (run [Op.add e0 f0 x0 y0, Op.add e1 f1 x1 y1] app0).sources = [s0, s1] ∧
      s0.id = 0 ∧ s0.video_file = f0 ∧ s0.xpos = x0 ∧ s0.ypos = y0 ∧ s0.active = true ∧
      s1.id = 1 ∧ s1.video_file = f1 ∧ s1.xpos = x1 ∧ s1.ypos = y1 ∧ s1.active = true) := by
  obtain ⟨hsrc, hn, hp, _⟩ := main_setup_initial h0
  obtain ⟨s0, ha, hid0, hfile0, hxx0, hyy0, hact0⟩ :=
    add_video_source_built e0 f0 x0 y0 hp hf0 hm0
  have hp1 : (add_video_source e0 f0 x0 y0 app0).2.pipeline_playing = false := by
    rw [add_video_source_not_playing e0 f0 x0 y0 hp, (add_source_idle_frame e0 _ _).2.2.1]
    exact hp
  obtain ⟨s1, hb, hid1, hfile1, hxx1, hyy1, hact1⟩ :=
    add_video_source_built e1 f1 x1 y1 hp1 hf1 hm1
  rw [add_video_source_next, hn] at hid1
  rw [hn] at hid0
  rw [ha, hsrc] at hb
  have hrun : (run [Op.add e0 f0 x0 y0, Op.add e1 f1 x1 y1] app0).sources = [s0, s1] := hb
  refine ⟨?_, ?_, s0, s1, hrun, hid0, hfile0, hxx0, hyy0, hact0, hid1, hfile1, hxx1, hyy1,
    hact1⟩
  · simp only [returned_ids, add_video_source_id, add_video_source_next, hn]
    rfl
  · simp only [list_sources, hrun, List.map_cons, List.map_nil, source_line, hid0, hfile0,
      hxx0, hyy0, hact0, hid1, hfile1, hxx1, hyy1, hact1, if_true]
    simp only [String.append_assoc]
    rfl

theorem two_adds_then_list_witness :
    returned_ids two_clips app_ready = [0, 1] ∧
    list_sources (run two_clips app_ready) =
      ["Active sources:\n",
       "  Source 0: clip.mp4 at (0, 0) - ACTIVE\n",
       "  Source 1: clip2.mp4 at (320, 0) - ACTIVE\n"] := by
  have h := two_adds_then_list env_ok app_ready (by decide) env_ok env_ok
    "clip.mp4" "clip2.mp4" 0 0 320 0 rfl rfl (fun _ _ => rfl) (fun _ _ => rfl)
  exact ⟨h.1, h.2.1⟩

/-- C8: when the record found for an id is active, `remove_source_idle` keeps the
registry's length and the order of its ids, leaves in place of the removed
record a record with the same id, locator and position that is inactive, leaves
every other record exactly as it was, and so changes the listing only in that
the removed source's line now reads INACTIVE. -/
theorem remove_keeps_listing_of_others (app : AppData) (source_id : Int) (idx : Nat)
    (s : VideoSource) (hf : find_source app.sources source_id = some (idx, s))
    (ha : s.active = true) :
    (remove_source_idle source_id app).2.sources.length = app.sources.length ∧
    (remove_source_idle source_id app).2.sources.map VideoSource.id =
      app.sources.map VideoSource.id ∧
    (∃ s', (remove_source_idle source_id app).2.sources[idx]? = some s' ∧
      s'.id = s.id ∧ s'.video_file = s.video_file ∧ s'.xpos = s.xpos ∧ s'.ypos = s.ypos ∧
      s'.active = false) ∧
    (∀ j, j ≠ idx → (remove_source_idle source_id app).2.sources[j]? = app.sources[j]?) ∧
    list_sources (remove_source_idle source_id app).2 =
      (list_sources app).set (idx + 1) (source_line { s with active := false }) := by
  obtain ⟨eng', he, _, _⟩ := remove_source_idle_active hf ha
  obtain ⟨hs, _⟩ := find_source_some hf
  have hlt : idx < app.sources.length := by
    rcases Nat.lt_or_ge idx app.sources.length with h | h
    · exact h
    · rw [List.getElem?_eq_none h] at hs; simp at hs
  have hsrc : (remove_source_idle source_id app).2.sources = app.sources.set idx
      (clear_handles { s with video_sink_pad := none, audio_sink_pad := none }) := by
    rw [he]; rfl
  rw [hsrc]
  refine ⟨by simp, ?_, ?_, ?_, ?_⟩
  · rw [List.map_set]
    show (List.map VideoSource.id app.sources).set idx s.id = _
    apply List.ext_getElem?
    intro j
    rw [List.getElem?_set]
    split
    · rename_i hij
      subst hij
      have hget : app.sources[idx] = s := by
        have := List.getElem?_eq_getElem hlt
        rw [this] at hs
        exact Option.some.inj hs
      simp [hlt, hget]
    · rfl
  · exact ⟨_, List.getElem?_set_eq_of_lt _ hlt, rfl, rfl, rfl, rfl, rfl⟩
  · intro j hj
    exact List.getElem?_set_ne (Ne.symm hj)
  · simp only [list_sources, he, store_source, List.map_set, List.set_cons_succ]
    rfl

theorem remove_keeps_listing_of_others_witness :
    list_sources (remove_source_idle 0 (run two_clips app_ready)).2 =
      ["Active sources:\n",
       "  Source 0: clip.mp4 at (0, 0) - INACTIVE\n",
       "  Source 1: clip2.mp4 at (320, 0) - ACTIVE\n"] ∧
    (remove_source_idle 0 (run two_clips app_ready)).2.sources[1]? = some clip2_record := by
  have h := remove_keeps_listing_of_others (run two_clips app_ready) 0 0 clip_record
    (by decide) (by decide)
  refine ⟨?_, ?_⟩
  · rw [h.2.2.2.2]; decide
  · rw [h.2.2.2.1 1 (by decide)]; decide

/-! ## Repositioning -/

theorem set_position_sets (pad : String) (x y : Int) (eng : Engine) :
    ∀ p ∈ (set_position pad x y eng).videomixer, p.name = pad → p.xpos = x ∧ p.ypos = y := by
  intro p hp hname
  simp only [set_position, List.mem_map] at hp
  obtain ⟨q, _, hq⟩ := hp
  split at hq
  · rw [← hq]; exact ⟨rfl, rfl⟩
  · rename_i hne
    rw [← hq] at hname
    exact absurd hname hne

/-- The build places a granted video pad at the record's stored position. -/
theorem connect_video_position (env : Env) (s : VideoSource) (eng : Engine) (pad : String)
    (h : (connect_video env s eng).1.video_sink_pad = some pad) :
    ∀ p ∈ (connect_video env s eng).2.videomixer, p.name = pad →
      p.xpos = s.xpos ∧ p.ypos = s.ypos := by
  unfold connect_video at h ⊢
  dsimp only at h ⊢
  split
  · rename_i pad' hpad
    split at h
    · rename_i pad'' hpad''
      rw [hpad] at hpad''
      simp only [Option.some.injEq] at hpad''
      subst hpad''
      simp only at h
      rw [hpad] at h
      simp only [Option.some.injEq] at h
      subst h
      exact set_position_sets _ _ _ _
    · rename_i hnone
      rw [hpad] at hnone
      cases hnone
  · rename_i hnone
    split at h
    · rename_i pad'' hpad''
      rw [hnone] at hpad''
      cases hpad''
    · simp only at h
      rw [hnone] at h
      cases h

/-- The guard of `move_source_idle`: an inactive record, or one without a video
pad, is left alone. -/
theorem move_unknown_or_unlinked_aux (app : AppData) (source_id xpos ypos : Int)
    (idx : Nat) (s : VideoSource) (hf : find_source app.sources source_id = some (idx, s))
    (hc : s.active = false ∨ s.video_sink_pad = none) :
    (move_source_idle source_id xpos ypos app).2 = app := by
  unfold move_source_idle
  rw [hf]
  dsimp only
  rcases hc with hc | hc
  · rw [if_pos hc]
  · split
    · rfl
    · rw [hc]

/-- C9 as stated fails: a registered source that holds no video mixer pad (the
mixer refused the pad, or its file does not exist) keeps its old stored
position after `move 1 640 240`; the listing still reports (320, 0). -/
theorem move_without_video_pad_records_nothing :
    (run unlinked_ops app_ready).sources[1]? = some unlinked_record ∧
    unlinked_record.video_sink_pad = none ∧
    list_sources (move_video_source 1 640 240 (run unlinked_ops app_ready)) =
      ["Active sources:\n",
       "  Source 0: clip.mp4 at (0, 0) - ACTIVE\n",
       "  Source 1: clip2.mp4 at (320, 0) - ACTIVE\n"] ∧
    (¬ ∃ s, (move_video_source 1 640 240 (run unlinked_ops app_ready)).sources[1]? = some s ∧
      s.xpos = 640 ∧ s.ypos = 240) ∧
    list_sources (move_video_source 1 640 240 (run missing_ops app_ready)) =
      ["Active sources:\n",
       "  Source 0: clip.mp4 at (0, 0) - ACTIVE\n",
       "  Source 1: missing.mp4 at (320, 0) - INACTIVE\n"] := by
  refine ⟨by decide, by decide, by decide, ?_, by decide⟩
  rintro ⟨s, hs, hx, _⟩
  have h : (move_video_source 1 640 240 (run unlinked_ops app_ready)).sources[1]? =
      some unlinked_record := by decide
  rw [h] at hs
  simp only [Option.some.injEq] at hs
  subst hs
  revert hx
  decide

/-- C9 amended: when the record found for the id holds no video mixer pad,
`move_source_idle` records nothing: the state, and with it the stored position
and the listing, is unchanged.  The position is recorded only when the record is
active and holds its video pad, and then the stored position and the pad's
xpos/ypos are both set to (x, y) at once.  A pad granted during the build is
placed at the position stored in the record at that time. -/
theorem move_records_position_only_when_linked (app : AppData)
    (source_id xpos ypos : Int) :
    (∀ idx s, find_source app.sources source_id = some (idx, s) → s.video_sink_pad = none →
      (move_source_idle source_id xpos ypos app).2 = app ∧
      list_sources (move_source_idle source_id xpos ypos app).2 = list_sources app) ∧
    (∀ idx s pad, find_source app.sources source_id = some (idx, s) → s.active = true →
      s.video_sink_pad = some pad →
      (move_source_idle source_id xpos ypos app).2.sources =
        app.sources.set idx { s with xpos := xpos, ypos := ypos } ∧
      (move_source_idle source_id xpos ypos app).2.engine.videomixer =
        app.engine.videomixer.map
          (fun p => if p.name = pad then { p with xpos := xpos, ypos := ypos } else p) ∧
      (∀ p ∈ (move_source_idle source_id xpos ypos app).2.engine.videomixer,
        p.name = pad → p.xpos = xpos ∧ p.ypos = ypos)) ∧
    (∀ (env : Env) (s : VideoSource) (eng : Engine) (pad : String),
      (connect_video env s eng).1.video_sink_pad = some pad →
      ∀ p ∈ (connect_video env s eng).2.videomixer, p.name = pad →
        p.xpos = s.xpos ∧ p.ypos = s.ypos) := by
  refine ⟨?_, ?_, connect_video_position⟩
  · intro idx s hf hp
    have key := (move_unknown_or_unlinked_aux app source_id xpos ypos idx s hf (Or.inr hp))
    rw [key]
    exact ⟨rfl, rfl⟩
  · intro idx s pad hf ha hp
    have key : (move_source_idle source_id xpos ypos app).2 =
        store_source idx { s with xpos := xpos, ypos := ypos }
          { app with engine := set_position pad xpos ypos app.engine } := by
      unfold move_source_idle
      rw [hf]
      dsimp only
      rw [if_neg (by simp [ha])]
      split
      · rename_i hnone
        rw [hp] at hnone
        cases hnone
      · rename_i pad' hpad'
        rw [hp] at hpad'
        simp only [Option.some.injEq] at hpad'
        subst hpad'
        rfl
    rw [key]
    exact ⟨rfl, rfl, set_position_sets pad xpos ypos app.engine⟩

theorem move_records_position_only_when_linked_witness :
    (move_source_idle 1 640 240 (run unlinked_ops app_ready)).2 = run unlinked_ops app_ready ∧
    (move_source_idle 1 640 240 (run two_clips app_ready)).2.sources =
      (run two_clips app_ready).sources.set 1 { clip2_record with xpos := 640, ypos := 240 } ∧
    (move_source_idle 1 640 240 (run two_clips app_ready)).2.engine.videomixer =
      [{ name := "sink_0", xpos := 0, ypos := 0 }, { name := "sink_1", xpos := 640, ypos := 240 }] := by
  have h1 := (move_records_position_only_when_linked (run unlinked_ops app_ready)
    1 640 240).1 1 unlinked_record (by decide) (by decide)
  have h2 := (move_records_position_only_when_linked (run two_clips app_ready)
    1 640 240).2.1 1 clip2_record "sink_1" (by decide) (by decide) (by decide)
  refine ⟨h1.1, h2.1, ?_⟩
  rw [h2.2.1]
  decide

/-! ## The idle queue -/

/-- Dispatching as many times as there are callbacks ahead consumes exactly those
callbacks, oldest first. -/
theorem run_idle_dispatches_queue (es : List Env) : ∀ app : AppData,
    es.length ≤ app.idle_queue.length →
    (run (es.map Op.idle) app).idle_queue = app.idle_queue.drop es.length := by
  induction es with
  | nil => intro app _; rfl
  | cons e es ih =>
    intro app hlen
    cases hq : app.idle_queue with
    | nil => rw [hq] at hlen; simp at hlen
    | cons t rest =>
      have hstep : (step app (Op.idle e)).idle_queue = rest := by
        simp only [step]
        rw [dispatch_idle_cons e hq, (run_idle_frame e t _).1]
      have hlen' : es.length ≤ (step app (Op.idle e)).idle_queue.length := by
        rw [hstep]; rw [hq] at hlen; simpa using hlen
      have := ih (step app (Op.idle e)) hlen'
      simp only [List.map_cons, run, List.foldl_cons] at this ⊢
      rw [this, hstep]
      simp

/-- C10: each of `add_video_source`, `remove_video_source`, `move_video_source`
applies its callback to the state before returning when `pipeline_playing` is
false.  When it is true the call runs no callback: the state is unchanged except
that the callback is appended at the tail of the idle queue (and, for add, the
new inactive record is appended and the counter incremented).  Every callback
returns `G_SOURCE_REMOVE` and leaves the queue alone, so once the callbacks
ahead of it have been dispatched the enqueued callback is alone in the queue,
the next dispatch runs it, and the queue is then empty: it runs exactly once. -/
theorem submit_runs_now_or_enqueues_once (env : Env) (app : AppData) :
    (app.pipeline_playing = false →
      (∀ f x y, (add_video_source env f x y app).2 =
        (add_source_idle env app.sources.length
          { app with
            next_source_id := app.next_source_id + 1
            sources := app.sources ++
              [create_video_source_struct app.next_source_id f x y] }).2) ∧
      (∀ id, remove_video_source id app = (remove_source_idle id app).2) ∧
      (∀ id x y, move_video_source id x y app = (move_source_idle id x y app).2)) ∧
    (app.pipeline_playing = true →
      (∀ f x y, (add_video_source env f x y app).2 =
        { app with
          next_source_id := app.next_source_id + 1
          sources := app.sources ++ [create_video_source_struct app.next_source_id f x y]
          idle_queue := app.idle_queue ++ [IdleTask.add_source app.sources.length] }) ∧
      (∀ id, remove_video_source id app =
        { app with idle_queue := app.idle_queue ++ [IdleTask.remove_source id] }) ∧
      (∀ id x y, move_video_source id x y app =
        { app with idle_queue := app.idle_queue ++ [IdleTask.move_source id x y] })) ∧
    (∀ (e : Env) (task : IdleTask) (a : AppData),
      (run_idle e task a).1 = G_SOURCE_REMOVE ∧
      (run_idle e task a).2.idle_queue = a.idle_queue) ∧
    (∀ (task : IdleTask) (es : List Env) (e e' : Env),
      es.length = app.idle_queue.length →
      (run (es.map Op.idle) (g_idle_add task app)).idle_queue = [task] ∧
      dispatch_idle e (run (es.map Op.idle) (g_idle_add task app)) =
        (run_idle e task
          { run (es.map Op.idle) (g_idle_add task app) with idle_queue := [] }).2 ∧
      (dispatch_idle e (run (es.map Op.idle) (g_idle_add task app))).idle_queue = [] ∧
      dispatch_idle e' (dispatch_idle e (run (es.map Op.idle) (g_idle_add task app))) =
        dispatch_idle e (run (es.map Op.idle) (g_idle_add task app))) := by
  refine ⟨?_, ?_, ?_, ?_⟩
  · intro hp
    refine ⟨fun f x y => add_video_source_not_playing env f x y hp, ?_, ?_⟩
    · intro id; simp [remove_video_source, hp]
    · intro id x y; simp [move_video_source, hp]
  · intro hp
    refine ⟨fun f x y => by rw [add_video_source_playing env f x y hp], ?_, ?_⟩
    · intro id; simp [remove_video_source, hp, g_idle_add]
    · intro id x y; simp [move_video_source, hp, g_idle_add]
  · intro e task a
    exact ⟨run_idle_result e task a, (run_idle_frame e task a).1⟩
  · intro task es e e' hlen
    have hq : (run (es.map Op.idle) (g_idle_add task app)).idle_queue = [task] := by
      rw [run_idle_dispatches_queue es (g_idle_add task app)
        (by simp [g_idle_add, hlen])]
      simp [g_idle_add, hlen]
    have hd := dispatch_idle_cons e hq
    have hempty : (dispatch_idle e (run (es.map Op.idle) (g_idle_add task app))).idle_queue
        = [] := by
      rw [hd, (run_idle_frame e task _).1]
    exact ⟨hq, hd, hempty, dispatch_idle_nil e' hempty⟩

theorem submit_runs_now_or_enqueues_once_witness :
    remove_video_source 0 (run two_clips app_ready) =
      (remove_source_idle 0 (run two_clips app_ready)).2 ∧
    (add_video_source env_ok "clip.mp4" 0 0 app_playing).2 =
      { app_playing with
        next_source_id := 1
        sources := [create_video_source_struct 0 "clip.mp4" 0 0]
        idle_queue := [IdleTask.add_source 0] } ∧
    (dispatch_idle env_ok (g_idle_add (IdleTask.move_source 0 5 5)
        (add_video_source env_ok "clip.mp4" 0 0 app_playing).2)).idle_queue =
      [IdleTask.move_source 0 5 5] := by
  have h1 := (submit_runs_now_or_enqueues_once env_ok (run two_clips app_ready)).1
    (by decide)
  have h2 := (submit_runs_now_or_enqueues_once env_ok app_playing).2.1 (by decide)
  have h3 := ((submit_runs_now_or_enqueues_once env_ok
    (add_video_source env_ok "clip.mp4" 0 0 app_playing).2).2.2.2
    (IdleTask.move_source 0 5 5) [env_ok] env_ok env_ok (by decide)).1
  exact ⟨h1.2.1 0, h2.1 "clip.mp4" 0 0, h3⟩

/-! ## The `quit` command -/

/-- C11 (the code departs from it): `quit` does not end the session.  The `quit`
branch of `process_command` prints nothing and leaves the state as it is, and
the command loop goes on with the next buffer: for every input, a `quit` line
is skipped like an empty line.  On the input `quit`, `add clip.mp4 0 0`, end of
file, the `add` after the `quit` is processed: it prints `Added source 0` and
the registry ends with one active source, while the state at the `quit` had
none.  `main` returns 0 only after `fgets` reports end of file. -/
theorem quit_does_not_end_the_session :
    (∀ (env : Env) (app : AppData), process_command env "quit" app = ([], app)) ∧
    (∀ (env : Env) (rest : List (Env × String)) (app : AppData),
      command_loop ((env, "quit\n") :: rest) app = command_loop rest app) ∧
    main env_ok [] quit_then_add =
      (0, some (["Added source 0\n"], run [Op.add env_ok "clip.mp4" 0 0] app_ready)) ∧
    (main env_ok [] quit_then_add).2.map (fun r => list_sources r.2) =
      some ["Active sources:\n", "  Source 0: clip.mp4 at (0, 0) - ACTIVE\n"] ∧
    main env_ok [] [(env_ok, "quit\n")] = (0, some ([], app_ready)) ∧
    app_ready.sources = [] := by
  have hq : ∀ (env : Env) (app : AppData), process_command env "quit" app = ([], app) := by
    intro env app
    rfl
  refine ⟨hq, ?_, by decide, by decide, by decide, rfl⟩
  intro env rest app
  have hcmd : String.mk (("quit\n" : String).data.takeWhile (fun c => !(c = '\n'))) = "quit" := by
    decide
  have hlen : ("quit" : String).length > 0 := by decide
  simp only [command_loop, hcmd, hlen, if_true, hq, List.nil_append]

/-! ## The pad-added callback -/

/-- The links after `link_to_queue`: the new link is added exactly when neither the
queue's sink pad nor the announced pad is linked yet and the engine can
negotiate the link. -/
theorem link_to_queue_links (env : Env) (pad : NewPad) (q : String) (eng : Engine) :
    (link_to_queue env pad (some q) eng).links =
      if (!gst_pad_is_linked { element := q, pad := "sink" } eng &&
          !gst_pad_is_linked { element := pad.element, pad := pad.name } eng &&
          env.pad_link { element := pad.element, pad := pad.name }
            { element := q, pad := "sink" }) = true
      then eng.links ++
        [({ element := pad.element, pad := pad.name }, { element := q, pad := "sink" })]
      else eng.links := by
  have hc : ∀ (p : PadRef) (cs : List EngineCall),
      gst_pad_is_linked p { eng with calls := cs } = gst_pad_is_linked p eng := fun _ _ => rfl
  simp only [link_to_queue, gst_element_get_static_pad, Option.map_some', gst_pad_link, hc]
  by_cases h1 : gst_pad_is_linked { element := q, pad := "sink" } eng = true
  · simp [h1]
  · by_cases h2 : gst_pad_is_linked { element := pad.element, pad := pad.name } eng = true
    · simp [h1, h2]
    · by_cases h3 : env.pad_link { element := pad.element, pad := pad.name }
          { element := q, pad := "sink" } = true
      · simp [h1, h2, h3]
      · simp [h1, h2, h3]

/-- What `link_to_queue` leaves alone. -/
theorem link_to_queue_frame (env : Env) (pad : NewPad) (queue : Option String)
    (eng : Engine) :
    (link_to_queue env pad queue eng).videomixer = eng.videomixer ∧
    (link_to_queue env pad queue eng).audiomixer = eng.audiomixer ∧
    (link_to_queue env pad queue eng).pipeline = eng.pipeline := by
  cases queue with
  | none => exact ⟨rfl, rfl, rfl⟩
  | some q =>
    simp only [link_to_queue, gst_element_get_static_pad, Option.map_some']
    split
    · refine ⟨by simp, by simp, ?_⟩
      simp only [gst_pad_link]
      split <;> rfl
    · exact ⟨rfl, rfl, rfl⟩

/-- The branch that `on_pad_added` takes is the one the two-tier rule names. -/
theorem on_pad_added_classified (env : Env) (idx : Nat) (pad : NewPad) (app : AppData)
    (source : VideoSource) (hs : app.sources[idx]? = some source) :
    on_pad_added env idx pad app =
      match classify_pad (template_media_type pad) pad.name with
      | some MediaKind.video =>
        { app with engine := link_to_queue env pad source.queue_video app.engine }
      | some MediaKind.audio =>
        { app with engine := link_to_queue env pad source.queue_audio app.engine }
      | none => app := by
  have hv : g_str_has_prefix "video/" "video/" = true := by decide
  have hav : g_str_has_prefix "audio/" "video/" = false := by decide
  have haa : g_str_has_prefix "audio/" "audio/" = true := by decide
  unfold on_pad_added pad_media_type classify_pad
  rw [hs]
  cases template_media_type pad with
  | some m =>
    dsimp only
    by_cases h1 : g_str_has_prefix m "video/" = true
    · simp [h1]
    · by_cases h2 : g_str_has_prefix m "audio/" = true
      · simp [h1, h2]
      · simp [h1, h2]
  | none =>
    dsimp only
    by_cases h1 : g_str_has_suffix pad.name "_0" = true
    · simp [h1, hv]
    · by_cases h2 : g_str_has_suffix pad.name "_1" = true
      · simp [h1, h2, hav, haa]
      · simp [h1, h2]

set_option maxRecDepth 8000 in
/-- C13 as stated fails: a pad whose declared capability name starts with
`video/` is not linked to the video queue when that queue's sink pad is already
linked.  After `first_video_pad` has been linked to source 0's video queue, the
callback for `second_video_pad` (caps `video/x-raw`) makes no link and leaves
the state as it was. -/
theorem second_video_pad_is_not_linked :
    template_media_type second_video_pad = some "video/x-raw" ∧
    g_str_has_prefix "video/x-raw" "video/" = true ∧
    app_first_linked.sources[0]?.map VideoSource.queue_video = some (some "queue_video_0") ∧
    gst_pad_is_linked { element := "queue_video_0", pad := "sink" } app_first_linked.engine
      = true ∧
    (({ element := "decodebin_0", pad := "src_1" }, { element := "queue_video_0", pad := "sink" })
        : PadRef × PadRef) ∉
      (on_pad_added env_ok 0 second_video_pad app_first_linked).engine.links ∧
    (on_pad_added env_ok 0 second_video_pad app_first_linked).engine.links =
      app_first_linked.engine.links := by
  decide

/-- C13 amended: `on_pad_added` classifies the announced pad in two tiers.  When
the pad template declares a capability name, that name alone decides, whatever
the pad is called: `video/...` selects the video queue, `audio/...` the audio
queue.  Only when no capability name is available does the pad name decide
(suffix `_0` video, suffix `_1` audio).  The pad is then linked to the selected
queue's sink pad exactly when that sink pad and the pad are not linked yet and
the link negotiates; no link to the other queue is made.  In every other case
the state is unchanged.  The callback never touches the registry, the mixers or
the pipeline's children. -/
theorem pad_added_links_by_two_tier_rule (env : Env) (idx : Nat) (pad : NewPad)
    (app : AppData) (source : VideoSource) (qv qa : String)
    (hs : app.sources[idx]? = some source)
    (hqv : source.queue_video = some qv) (hqa : source.queue_audio = some qa) :
    (classify_pad (template_media_type pad) pad.name = some MediaKind.video →
      (on_pad_added env idx pad app).engine.links =
        if can_link env { element := pad.element, pad := pad.name }
            { element := qv, pad := "sink" } app.engine = true
        then app.engine.links ++
          [({ element := pad.element, pad := pad.name }, { element := qv, pad := "sink" })]
        else app.engine.links) ∧
    (classify_pad (template_media_type pad) pad.name = some MediaKind.audio →
      (on_pad_added env idx pad app).engine.links =
        if can_link env { element := pad.element, pad := pad.name }
            { element := qa, pad := "sink" } app.engine = true
        then app.engine.links ++
          [({ element := pad.element, pad := pad.name }, { element := qa, pad := "sink" })]
        else app.engine.links) ∧
    (classify_pad (template_media_type pad) pad.name = none →
      on_pad_added env idx pad app = app) ∧
    (∀ (caps name1 name2 : String),
      classify_pad (some caps) name1 = classify_pad (some caps) name2) ∧
    ((on_pad_added env idx pad app).sources = app.sources ∧
      (on_pad_added env idx pad app).engine.videomixer = app.engine.videomixer ∧
      (on_pad_added env idx pad app).engine.audiomixer = app.engine.audiomixer ∧
      (on_pad_added env idx pad app).engine.pipeline = app.engine.pipeline) := by
  have hc := on_pad_added_classified env idx pad app source hs
  refine ⟨?_, ?_, ?_, fun _ _ _ => rfl, ?_⟩
  · intro hk
    rw [hc, hk, hqv]
    exact link_to_queue_links env pad qv app.engine
  · intro hk
    rw [hc, hk, hqa]
    exact link_to_queue_links env pad qa app.engine
  · intro hk
    rw [hc, hk]
  · rw [hc]
    have fv := link_to_queue_frame env pad source.queue_video app.engine
    have fa := link_to_queue_frame env pad source.queue_audio app.engine
    cases hk : classify_pad (template_media_type pad) pad.name with
    | none => exact ⟨rfl, rfl, rfl, rfl⟩
    | some k =>
      cases k with
      | video => exact ⟨rfl, fv.1, fv.2.1, fv.2.2⟩
      | audio => exact ⟨rfl, fa.1, fa.2.1, fa.2.2⟩

set_option maxRecDepth 8000 in
theorem pad_added_links_by_two_tier_rule_witness :
    (run two_clips app_ready).sources[0]? = some clip_record ∧
    (on_pad_added env_ok 0 first_video_pad (run two_clips app_ready)).engine.links =
      (run two_clips app_ready).engine.links ++
        [({ element := "decodebin_0", pad := "src_0" },
          { element := "queue_video_0", pad := "sink" })] ∧
    (on_pad_added env_ok 0 second_video_pad app_first_linked).engine.links =
      app_first_linked.engine.links := by
  have h1 := (pad_added_links_by_two_tier_rule env_ok 0 first_video_pad
    (run two_clips app_ready) clip_record "queue_video_0" "queue_audio_0"
    (by decide) rfl rfl).1 (by decide)
  have h2 := (pad_added_links_by_two_tier_rule env_ok 0 second_video_pad
    app_first_linked clip_record "queue_video_0" "queue_audio_0"
    (by decide) rfl rfl).1 (by decide)
  refine ⟨by decide, ?_, ?_⟩
  · rw [h1, if_pos (by decide)]; rfl
  · rw [h2, if_neg (by decide)]

/-! ## Build failures -/

/-- The video mixer's pads after `connect_video`: unchanged when no pad is granted,
otherwise extended by the new pad at the record's stored position. -/
theorem connect_video_videomixer (env : Env) (s : VideoSource) (eng : Engine) :
    ((connect_video env s eng).1.video_sink_pad = none ∧
      (connect_video env s eng).2.videomixer = eng.videomixer) ∨
    ((connect_video env s eng).1.video_sink_pad = some (pad_name s.id) ∧
      (connect_video env s eng).2.videomixer =
        eng.videomixer ++ [{ name := pad_name s.id, xpos := s.xpos, ypos := s.ypos }]) := by
  by_cases h : (env.request_pad "videomixer" (pad_name s.id) &&
      !(decide (pad_name s.id ∈ eng.videomixer.map MixerPad.name))) = true
  · right
    have hr : request_video_pad env (pad_name s.id) eng =
        (some (pad_name s.id),
          { eng with
            calls := eng.calls ++ [EngineCall.request_pad "videomixer" (pad_name s.id)]
            videomixer := eng.videomixer ++
              [{ name := pad_name s.id, xpos := 0, ypos := 0 }] }) := by
      unfold request_video_pad
      dsimp only
      rw [if_pos h]
    simp only [Bool.and_eq_true, Bool.not_eq_true', decide_eq_false_iff_not] at h
    unfold connect_video
    dsimp only
    rw [hr]
    dsimp only
    refine ⟨rfl, ?_⟩
    simp only [set_position, gst_pad_link_videomixer, List.map_append, List.map_cons,
      List.map_nil, if_true]
    congr 1
    conv_rhs => rw [← List.map_id eng.videomixer]
    apply List.map_congr_left
    intro p hp
    have hne : ¬ p.name = pad_name s.id := by
      intro e
      exact h.2 (e ▸ List.mem_map_of_mem MixerPad.name hp)
    rw [if_neg hne]
    rfl
  · left
    have hr : request_video_pad env (pad_name s.id) eng =
        (none, { eng with
          calls := eng.calls ++ [EngineCall.request_pad "videomixer" (pad_name s.id)] }) := by
      unfold request_video_pad
      dsimp only
      rw [if_neg h]
    unfold connect_video
    dsimp only
    rw [hr]
    exact ⟨rfl, rfl⟩

/-- A refused video pad request leaves the record without a video pad. -/
theorem request_video_pad_refused (env : Env) (name : String) (eng : Engine)
    (h : env.request_pad "videomixer" name = false) :
    (request_video_pad env name eng).1 = none := by
  unfold request_video_pad
  simp [h]

theorem request_audio_pad_refused (env : Env) (name : String) (eng : Engine)
    (h : env.request_pad "audiomixer" name = false) :
    (request_audio_pad env name eng).1 = none := by
  unfold request_audio_pad
  simp [h]

theorem gst_pad_link_calls (env : Env) (src : Option PadRef) (sink : PadRef) (eng : Engine) :
    (gst_pad_link env src sink eng).2.calls = eng.calls ++ [EngineCall.pad_link src sink] := by
  unfold gst_pad_link
  cases src with
  | none => rfl
  | some p => dsimp only; split <;> rfl

theorem request_audio_pad_calls (env : Env) (name : String) (eng : Engine) :
    (request_audio_pad env name eng).2.calls =
      eng.calls ++ [EngineCall.request_pad "audiomixer" name] := by
  unfold request_audio_pad
  dsimp only
  split <;> rfl

/-- The request on the audio mixer is always issued by `connect_audio`. -/
theorem connect_audio_requests (env : Env) (s : VideoSource) (eng : Engine) :
    EngineCall.request_pad "audiomixer" (pad_name s.id) ∈ (connect_audio env s eng).2.calls := by
  unfold connect_audio
  dsimp only
  split
  · rw [gst_pad_link_calls, request_audio_pad_calls]; simp
  · rw [request_audio_pad_calls]; simp

/-- The state after a build that gets past the element constructors. -/
theorem add_source_idle_built_eq (env : Env) {idx : Nat} {app : AppData} {s : VideoSource}
    (hs : app.sources[idx]? = some s) (hf : env.file_exists s.video_file = true)
    (hm : (make_elements env s).1 = true) :
    (add_source_idle env idx app).2 =
      store_source idx
        { (connect_audio env
            (connect_video env (make_elements env s).2
              (insert_chain env (make_elements env s).2 app.engine)).1
            (connect_video env (make_elements env s).2
              (insert_chain env (make_elements env s).2 app.engine)).2).1 with
          active := true }
        { app with engine :=
          (connect_audio env
            (connect_video env (make_elements env s).2
              (insert_chain env (make_elements env s).2 app.engine)).1
            (connect_video env (make_elements env s).2
              (insert_chain env (make_elements env s).2 app.engine)).2).2 } := by
  unfold add_source_idle
  rw [hs]
  dsimp only
  rw [if_neg (by simp [hf]), if_neg (by simp [hm])]

/-- The state after a build that stops at an element constructor. -/
theorem add_source_idle_failed_eq (env : Env) {idx : Nat} {app : AppData} {s : VideoSource}
    (hs : app.sources[idx]? = some s) (hf : env.file_exists s.video_file = true)
    (hm : (make_elements env s).1 = false) :
    (add_source_idle env idx app).2 = store_source idx (make_elements env s).2 app := by
  unfold add_source_idle
  rw [hs]
  dsimp only
  rw [if_neg (by simp [hf]), if_pos hm]

/-- A build never removes or alters a pad that is on a mixer. -/
theorem add_source_idle_keeps_pads (env : Env) (idx : Nat) (app : AppData) :
    (∀ p ∈ app.engine.videomixer, p ∈ (add_source_idle env idx app).2.engine.videomixer) ∧
    (∀ p ∈ app.engine.audiomixer, p ∈ (add_source_idle env idx app).2.engine.audiomixer) := by
  cases hs : app.sources[idx]? with
  | none =>
    have : (add_source_idle env idx app).2 = app := by
      unfold add_source_idle; rw [hs]
    rw [this]; exact ⟨fun _ h => h, fun _ h => h⟩
  | some s =>
    cases hf : env.file_exists s.video_file with
    | false =>
      rw [add_source_idle_missing env hs hf]; exact ⟨fun _ h => h, fun _ h => h⟩
    | true =>
      cases hm : (make_elements env s).1 with
      | false =>
        rw [add_source_idle_failed_eq env hs hf hm]
        exact ⟨fun _ h => h, fun _ h => h⟩
      | true =>
        rw [add_source_idle_built_eq env hs hf hm]
        have hv := connect_video_videomixer env (make_elements env s).2
          (insert_chain env (make_elements env s).2 app.engine)
        obtain ⟨_, hv2, _⟩ := connect_video_spec env (make_elements env s).2
          (insert_chain env (make_elements env s).2 app.engine)
        rw [insert_chain_videomixer] at hv
        rw [insert_chain_audiomixer] at hv2
        generalize connect_video env (make_elements env s).2
          (insert_chain env (make_elements env s).2 app.engine) = v at hv hv2 ⊢
        obtain ⟨_, ha2, ha3⟩ := connect_audio_spec env v.1 v.2
        have hra := request_audio_pad_spec env (pad_name v.1.id) v.2
        generalize connect_audio env v.1 v.2 = a at ha2 ha3 ⊢
        refine ⟨?_, ?_⟩
        · intro p hp
          show p ∈ a.2.videomixer
          rw [ha3]
          rcases hv with ⟨_, h⟩ | ⟨_, h⟩
          · rw [h]; exact hp
          · rw [h]; exact List.mem_append_left _ hp
        · intro p hp
          show p ∈ a.2.audiomixer
          rw [ha2]
          rcases hra with ⟨_, h⟩ | ⟨_, _, h⟩
          · rw [h, hv2]; exact hp
          · rw [h, hv2]; exact List.mem_append_left _ hp

/-- C12 as stated fails: a mixer pad request that returns no pad does not abort the
build.  With the video mixer refusing `sink_1`, `add_source_idle` for source 1
still requests and links the audio pad and marks the source active, without a
video pad. -/
theorem pad_request_failure_does_not_abort :
    env_no_video_pad.request_pad "videomixer" (pad_name 1) = false ∧
    app_before_unlinked.sources[1]? =
      some (create_video_source_struct 1 "clip2.mp4" 320 0) ∧
    (add_source_idle env_no_video_pad 1 app_before_unlinked).2.sources[1]? =
      some unlinked_record ∧
    unlinked_record.active = true ∧
    unlinked_record.video_sink_pad = none ∧
    unlinked_record.audio_sink_pad = some "sink_1" := by
  decide

/-- C12 amended: in `add_source_idle` a locator that is not reachable, or a chain
node that cannot be created, aborts the remaining steps: the record's active
flag and pads are what they were (so a new source is not marked active) and the
engine is untouched.  A mixer pad request that returns no pad does not abort:
the remaining steps run (the audio pad is still requested) and the source is
marked active, holding no pad on the mixer that refused.  In every case no
other record changes and every pad on the mixers stays as it is. -/
theorem build_failure_effects (env : Env) (idx : Nat) (app : AppData) (s : VideoSource)
    (hs : app.sources[idx]? = some s) :
    (env.file_exists s.video_file = false →
      add_source_idle env idx app = (G_SOURCE_REMOVE, app)) ∧
    (env.file_exists s.video_file = true → (make_elements env s).1 = false →
      (add_source_idle env idx app).2 = store_source idx (make_elements env s).2 app ∧
      (make_elements env s).2.active = s.active ∧
      (make_elements env s).2.video_sink_pad = s.video_sink_pad ∧
      (make_elements env s).2.audio_sink_pad = s.audio_sink_pad ∧
      (add_source_idle env idx app).2.engine = app.engine) ∧
    (env.file_exists s.video_file = true → (make_elements env s).1 = true →
      ∃ s', (add_source_idle env idx app).2.sources[idx]? = some s' ∧
        s'.active = true ∧
        (env.request_pad "videomixer" (pad_name s.id) = false → s'.video_sink_pad = none) ∧
        (env.request_pad "audiomixer" (pad_name s.id) = false → s'.audio_sink_pad = none) ∧
        EngineCall.request_pad "audiomixer" (pad_name s.id) ∈
          (add_source_idle env idx app).2.engine.calls) ∧
    (∀ k, k ≠ idx → (add_source_idle env idx app).2.sources[k]? = app.sources[k]?) ∧
    (∀ p ∈ app.engine.videomixer, p ∈ (add_source_idle env idx app).2.engine.videomixer) ∧
    (∀ p ∈ app.engine.audiomixer, p ∈ (add_source_idle env idx app).2.engine.audiomixer) := by
  have hlt : idx < app.sources.length := by
    rcases Nat.lt_or_ge idx app.sources.length with h | h
    · exact h
    · rw [List.getElem?_eq_none h] at hs; simp at hs
  obtain ⟨hid, _, _, _, hact, hvp, hap⟩ := make_elements_fields env s
  refine ⟨?_, ?_, ?_, fun k hk => add_source_idle_other env idx app (Ne.symm hk),
    (add_source_idle_keeps_pads env idx app).1, (add_source_idle_keeps_pads env idx app).2⟩
  · intro hf
    have h1 := add_source_idle_missing env hs hf
    have h2 := add_source_idle_result env idx app
    exact Prod.ext h2 h1
  · intro hf hm
    have h := add_source_idle_failed_eq env hs hf hm
    exact ⟨h, hact, hvp, hap, by rw [h]; rfl⟩
  · intro hf hm
    rw [add_source_idle_built_eq env hs hf hm]
    obtain ⟨vid, _, _, _, _, _, vvp⟩ := connect_video_fields env (make_elements env s).2
      (insert_chain env (make_elements env s).2 app.engine)
    have hrv := request_video_pad_refused env (pad_name s.id)
      (insert_chain env (make_elements env s).2 app.engine)
    rw [hid] at vvp
    generalize connect_video env (make_elements env s).2
      (insert_chain env (make_elements env s).2 app.engine) = v at vid vvp ⊢
    obtain ⟨_, _, _, _, _, avp, aap⟩ := connect_audio_fields env v.1 v.2
    have hra := request_audio_pad_refused env (pad_name s.id) v.2
    have hreq := connect_audio_requests env v.1 v.2
    rw [vid, hid] at aap hreq
    generalize connect_audio env v.1 v.2 = a at avp aap hreq ⊢
    refine ⟨{ a.1 with active := true }, ?_, rfl, ?_, ?_, hreq⟩
    · simp only [store_source]
      exact List.getElem?_set_eq_of_lt _ hlt
    · intro h
      show a.1.video_sink_pad = none
      rw [avp, vvp, hrv h]
    · intro h
      show a.1.audio_sink_pad = none
      rw [aap, hra h]

theorem build_failure_effects_witness :
    app_before_unlinked.sources[1]? =
      some (create_video_source_struct 1 "clip2.mp4" 320 0) ∧
    add_source_idle env_no_file 1 app_before_unlinked =
      (G_SOURCE_REMOVE, app_before_unlinked) ∧
    (add_source_idle env_no_video_pad 1 app_before_unlinked).2.sources[0]? =
      app_before_unlinked.sources[0]? ∧
    (∃ s', (add_source_idle env_no_video_pad 1 app_before_unlinked).2.sources[1]? = some s' ∧
      s'.active = true ∧ s'.video_sink_pad = none) := by
  have h := build_failure_effects env_no_video_pad 1 app_before_unlinked
    (create_video_source_struct 1 "clip2.mp4" 320 0) (by decide)
  have h' := build_failure_effects env_no_file 1 app_before_unlinked
    (create_video_source_struct 1 "clip2.mp4" 320 0) (by decide)
  obtain ⟨s', h1, h2, h3, _⟩ := h.2.2.1 (by decide) (make_elements_ok _ _ (fun _ _ => rfl))
  exact ⟨by decide, h'.1 (by decide), h.2.2.2.1 0 (by decide), s', h1, h2, h3 (by decide)⟩

/-! ## Chain nodes -/

theorem ite_cases {α : Type} (P : α → Prop) (c : Prop) [Decidable c] (x y : α)
    (hx : c → P x) (hy : ¬c → P y) : P (if c then x else y) := by
  split
  · exact hx ‹_›
  · exact hy ‹_›

/-- When all ten element constructors succeed, all ten handles are set. -/
theorem make_elements_handles (env : Env) (s : VideoSource)
    (h : (make_elements env s).1 = true) :
    (chain_handles (make_elements env s).2).all Option.isSome = true := by
  revert h
  unfold make_elements
  dsimp only
  refine ite_cases (fun r : Bool × VideoSource =>
    r.1 = true → (chain_handles r.2).all Option.isSome = true) _ _ _
    (fun _ h => by cases h) (fun h1 => ?_)
  refine ite_cases (fun r : Bool × VideoSource =>
    r.1 = true → (chain_handles r.2).all Option.isSome = true) _ _ _
    (fun _ h => by cases h) (fun h2 => ?_)
  refine ite_cases (fun r : Bool × VideoSource =>
    r.1 = true → (chain_handles r.2).all Option.isSome = true) _ _ _
    (fun _ h => by cases h) (fun h3 => ?_)
  refine ite_cases (fun r : Bool × VideoSource =>
    r.1 = true → (chain_handles r.2).all Option.isSome = true) _ _ _
    (fun _ h => by cases h) (fun h4 => ?_)
  refine ite_cases (fun r : Bool × VideoSource =>
    r.1 = true → (chain_handles r.2).all Option.isSome = true) _ _ _
    (fun _ h => by cases h) (fun h5 => ?_)
  refine ite_cases (fun r : Bool × VideoSource =>
    r.1 = true → (chain_handles r.2).all Option.isSome = true) _ _ _
    (fun _ h => by cases h) (fun h6 => ?_)
  refine ite_cases (fun r : Bool × VideoSource =>
    r.1 = true → (chain_handles r.2).all Option.isSome = true) _ _ _
    (fun _ h => by cases h) (fun h7 => ?_)
  refine ite_cases (fun r : Bool × VideoSource =>
    r.1 = true → (chain_handles r.2).all Option.isSome = true) _ _ _
    (fun _ h => by cases h) (fun h8 => ?_)
  refine ite_cases (fun r : Bool × VideoSource =>
    r.1 = true → (chain_handles r.2).all Option.isSome = true) _ _ _
    (fun _ h => by cases h) (fun h9 => ?_)
  refine ite_cases (fun r : Bool × VideoSource =>
    r.1 = true → (chain_handles r.2).all Option.isSome = true) _ _ _
    (fun _ h => by cases h) (fun h10 => ?_)
  intro _
  simp only [Bool.not_eq_true, Option.not_isSome, Option.isNone_iff_eq_none,
    ← Option.isSome_iff_ne_none, ne_eq] at h1 h2 h3 h4 h5 h6 h7 h8 h9 h10
  simp [chain_handles, h1, h2, h3, h4, h5, h6, h7, h8, h9, h10]

/-- A build of a record that was inactive leaves it inactive or with all ten chain
nodes. -/
theorem add_source_idle_handles (env : Env) {idx : Nat} {app : AppData} {s s' : VideoSource}
    (hs : app.sources[idx]? = some s) (hina : s.active = false)
    (hs' : (add_source_idle env idx app).2.sources[idx]? = some s')
    (hact : s'.active = true) : (chain_handles s').all Option.isSome = true := by
  have hlt : idx < app.sources.length := by
    rcases Nat.lt_or_ge idx app.sources.length with h | h
    · exact h
    · rw [List.getElem?_eq_none h] at hs; simp at hs
  cases hf : env.file_exists s.video_file with
  | false =>
    rw [add_source_idle_missing env hs hf, hs] at hs'
    simp only [Option.some.injEq] at hs'
    rw [← hs', hina] at hact
    cases hact
  | true =>
    cases hm : (make_elements env s).1 with
    | false =>
      rw [add_source_idle_failed_eq env hs hf hm] at hs'
      simp only [store_source, List.getElem?_set_eq_of_lt _ hlt, Option.some.injEq] at hs'
      rw [← hs', (make_elements_fields env s).2.2.2.2.1, hina] at hact
      cases hact
    | true =>
      rw [add_source_idle_built_eq env hs hf hm] at hs'
      simp only [store_source, List.getElem?_set_eq_of_lt _ hlt, Option.some.injEq] at hs'
      rw [← hs']
      have hh := make_elements_handles env s hm
      have hv := (connect_video_spec env (make_elements env s).2
        (insert_chain env (make_elements env s).2 app.engine)).1
      generalize connect_video env (make_elements env s).2
        (insert_chain env (make_elements env s).2 app.engine) = v at hv ⊢
      have ha := (connect_audio_spec env v.1 v.2).1
      generalize connect_audio env v.1 v.2 = a at ha ⊢
      show (chain_handles a.1).all Option.isSome = true
      rw [ha, hv]
      exact hh

/-! ## Reachable states keep the build discipline -/

theorem bd_add_source_idle {app : AppData} (env : Env) (idx : Nat)
    (h : BuildDiscipline app)
    (hina : ∀ s, app.sources[idx]? = some s → s.active = false)
    (hq : IdleTask.add_source idx ∉ app.idle_queue) :
    BuildDiscipline (add_source_idle env idx app).2 := by
  have hqueue := (add_source_idle_frame env idx app).1
  constructor
  · intro t ht hact
    obtain ⟨k, hk⟩ := List.getElem?_of_mem ht
    by_cases hki : idx = k
    · subst hki
      cases hs : app.sources[idx]? with
      | none =>
        have hlen := (add_source_idle_frame env idx app).2.2.2
        have : idx < (add_source_idle env idx app).2.sources.length := by
          rcases Nat.lt_or_ge idx (add_source_idle env idx app).2.sources.length with h' | h'
          · exact h'
          · rw [List.getElem?_eq_none h'] at hk; simp at hk
        rw [hlen] at this
        rw [List.getElem?_eq_getElem this] at hs
        simp at hs
      | some s => exact add_source_idle_handles env hs (hina s hs) hk hact
    · rw [add_source_idle_other env idx app hki] at hk
      exact h.handles t (List.getElem?_mem hk) hact
  · intro i hi
    rw [hqueue] at hi
    have hne : idx ≠ i := fun e => hq (e ▸ hi)
    rw [add_source_idle_other env idx app hne]
    exact h.pending i hi
  · intro i
    rw [hqueue]
    exact h.once i

theorem bd_remove_source_idle {app : AppData} (source_id : Int) (h : BuildDiscipline app) :
    BuildDiscipline (remove_source_idle source_id app).2 := by
  cases hf : find_source app.sources source_id with
  | none => rw [remove_source_idle_unknown hf]; exact h
  | some r =>
    obtain ⟨idx, s⟩ := r
    cases hact : s.active with
    | false => rw [remove_source_idle_inactive hf hact]; exact h
    | true =>
      obtain ⟨eng', he, _, _⟩ := remove_source_idle_active hf hact
      obtain ⟨hs, _⟩ := find_source_some hf
      have hlt : idx < app.sources.length := by
        rcases Nat.lt_or_ge idx app.sources.length with h' | h'
        · exact h'
        · rw [List.getElem?_eq_none h'] at hs; simp at hs
      rw [he]
      constructor
      · intro t ht hta
        rcases List.mem_or_eq_of_mem_set ht with ht | ht
        · exact h.handles t ht hta
        · rw [ht] at hta
          cases hta
      · intro i hi
        obtain ⟨t, ht, hti⟩ := h.pending i hi
        by_cases hii : idx = i
        · subst hii
          exact ⟨_, by simp only [store_source]; exact List.getElem?_set_eq_of_lt _ hlt, rfl⟩
        · exact ⟨t, by simp only [store_source]; rw [List.getElem?_set_ne hii]; exact ht, hti⟩
      · exact h.once

theorem bd_move_source_idle {app : AppData} (source_id xpos ypos : Int)
    (h : BuildDiscipline app) :
    BuildDiscipline (move_source_idle source_id xpos ypos app).2 := by
  rcases move_source_idle_effect source_id xpos ypos app with he | ⟨idx, s, pad, hf, hact, _, he⟩
  · rw [he]; exact h
  · rw [he]
    obtain ⟨hs, _⟩ := find_source_some hf
    constructor
    · intro t ht hta
      rcases List.mem_or_eq_of_mem_set ht with ht | ht
      · exact h.handles t ht hta
      · rw [ht]
        exact h.handles s (List.getElem?_mem hs) hact
    · intro i hi
      obtain ⟨t, ht, hti⟩ := h.pending i hi
      have hii : idx ≠ i := by
        rintro rfl
        rw [hs] at ht
        simp only [Option.some.injEq] at ht
        rw [ht, hti] at hact
        cases hact
      exact ⟨t, by simp only [store_source]; rw [List.getElem?_set_ne hii]; exact ht, hti⟩
    · exact h.once

theorem bd_run_idle_other {app : AppData} (env : Env) (task : IdleTask)
    (h : BuildDiscipline app)
    (ht : ∀ idx, task = IdleTask.add_source idx →
      (∀ s, app.sources[idx]? = some s → s.active = false) ∧
      IdleTask.add_source idx ∉ app.idle_queue) :
    BuildDiscipline (run_idle env task app).2 := by
  cases task with
  | add_source idx => exact bd_add_source_idle env idx h (ht idx rfl).1 (ht idx rfl).2
  | remove_source id => exact bd_remove_source_idle id h
  | move_source id x y => exact bd_move_source_idle id x y h

/-- Enqueuing a teardown or reposition callback keeps the discipline. -/
theorem bd_g_idle_add {app : AppData} {task : IdleTask} (h : BuildDiscipline app)
    (ht : ∀ idx, task ≠ IdleTask.add_source idx) :
    BuildDiscipline (g_idle_add task app) := by
  constructor
  · exact h.handles
  · intro i hi
    rcases List.mem_append.1 hi with hi | hi
    · exact h.pending i hi
    · simp only [List.mem_singleton] at hi
      exact absurd hi.symm (ht i)
  · intro i
    simp only [g_idle_add, List.count_append]
    have : List.count (IdleTask.add_source i) [task] = 0 := by
      rw [List.count_eq_zero]
      simp only [List.mem_singleton]
      exact fun e => ht i e.symm
    rw [this]
    exact h.once i

/-- The appended fresh record, with or without its build callback enqueued, keeps
the discipline. -/
theorem bd_append {app : AppData} (video_file : String) (xpos ypos : Int)
    (h : BuildDiscipline app) (q : List IdleTask)
    (hq : q = app.idle_queue ∨ q = app.idle_queue ++ [IdleTask.add_source app.sources.length]) :
    BuildDiscipline { app with
      next_source_id := app.next_source_id + 1
      sources := app.sources ++
        [create_video_source_struct app.next_source_id video_file xpos ypos]
      idle_queue := q } := by
  have hold : ∀ i, IdleTask.add_source i ∈ app.idle_queue → i < app.sources.length := by
    intro i hi
    obtain ⟨t, ht, _⟩ := h.pending i hi
    rcases Nat.lt_or_ge i app.sources.length with h' | h'
    · exact h'
    · rw [List.getElem?_eq_none h'] at ht; simp at ht
  constructor
  · intro t ht hta
    rcases List.mem_append.1 ht with ht | ht
    · exact h.handles t ht hta
    · simp only [List.mem_singleton] at ht
      rw [ht] at hta
      cases hta
  · intro i hi
    have hcase : IdleTask.add_source i ∈ app.idle_queue ∨ i = app.sources.length := by
      rcases hq with rfl | rfl
      · exact Or.inl hi
      · rcases List.mem_append.1 hi with hi | hi
        · exact Or.inl hi
        · simp only [List.mem_singleton, IdleTask.add_source.injEq] at hi
          exact Or.inr hi
    rcases hcase with hi | rfl
    · obtain ⟨t, ht, hti⟩ := h.pending i hi
      exact ⟨t, by simp only [List.getElem?_append_left (hold i hi)]; exact ht, hti⟩
    · exact ⟨create_video_source_struct app.next_source_id video_file xpos ypos,
        by simp, rfl⟩
  · intro i
    rcases hq with rfl | rfl
    · exact h.once i
    · simp only [List.count_append]
      by_cases hi : i = app.sources.length
      · subst hi
        have : List.count (IdleTask.add_source app.sources.length) app.idle_queue = 0 := by
          rw [List.count_eq_zero]
          exact fun hm => Nat.lt_irrefl _ (hold _ hm)
        rw [this]
        simp
      · have : List.count (IdleTask.add_source i)
            [IdleTask.add_source app.sources.length] = 0 := by
          rw [List.count_eq_zero]
          simp only [List.mem_singleton, IdleTask.add_source.injEq]
          exact hi
        rw [this]
        exact h.once i

theorem bd_step {app : AppData} (op : Op) (h : BuildDiscipline app) :
    BuildDiscipline (step app op) := by
  have hold : ∀ i, IdleTask.add_source i ∈ app.idle_queue → i < app.sources.length := by
    intro i hi
    obtain ⟨t, ht, _⟩ := h.pending i hi
    rcases Nat.lt_or_ge i app.sources.length with h' | h'
    · exact h'
    · rw [List.getElem?_eq_none h'] at ht; simp at ht
  cases op with
  | add env f x y =>
    simp only [step]
    cases hp : app.pipeline_playing with
    | true =>
      rw [add_video_source_playing env f x y hp]
      exact bd_append f x y h _ (Or.inr rfl)
    | false =>
      rw [add_video_source_not_playing env f x y hp]
      apply bd_add_source_idle env _ (bd_append f x y h app.idle_queue (Or.inl rfl))
      · intro s hs
        simp only [List.getElem?_concat_length, Option.some.injEq] at hs
        rw [← hs]; rfl
      · exact fun hm => Nat.lt_irrefl _ (hold _ hm)
  | remove id =>
    simp only [step, remove_video_source]
    split
    · exact bd_g_idle_add h (fun _ e => by cases e)
    · exact bd_remove_source_idle id h
  | move id x y =>
    simp only [step, move_video_source]
    split
    · exact bd_g_idle_add h (fun _ e => by cases e)
    · exact bd_move_source_idle id x y h
  | idle env =>
    simp only [step]
    cases hq : app.idle_queue with
    | nil => rw [dispatch_idle_nil env hq]; exact h
    | cons t rest =>
      rw [dispatch_idle_cons env hq]
      have hrest : BuildDiscipline { app with idle_queue := rest } := by
        constructor
        · exact h.handles
        · intro i hi
          exact h.pending i (by rw [hq]; exact List.mem_cons_of_mem _ hi)
        · intro i
          have := h.once i
          rw [hq] at this
          exact le_trans (List.Sublist.count_le (List.sublist_cons_self t rest) _) this
      apply bd_run_idle_other env t hrest
      intro idx ht
      subst ht
      refine ⟨?_, ?_⟩
      · intro s hs
        obtain ⟨s0, hs0, hina⟩ := h.pending idx (by rw [hq]; exact List.mem_cons_self _ _)
        have hs' : app.sources[idx]? = some s := hs
        rw [hs0] at hs'
        simp only [Option.some.injEq] at hs'
        rw [← hs']; exact hina
      · intro hm
        have hm' : IdleTask.add_source idx ∈ rest := hm
        have := h.once idx
        rw [hq, List.count_cons_self] at this
        have hpos : 0 < List.count (IdleTask.add_source idx) rest := List.count_pos_iff.2 hm'
        omega
  | state_changed fp st =>
    simp only [step, on_state_changed]
    split
    · exact { handles := h.handles, pending := h.pending, once := h.once }
    · exact h

theorem bd_run (ops : List Op) : ∀ {app : AppData}, BuildDiscipline app →
    BuildDiscipline (run ops app) := by
  induction ops with
  | nil => intro app h; exact h
  | cons op ops ih => intro app h; exact ih (bd_step op h)

/-- Every state reachable from the state set up by `main` keeps the build
discipline. -/
theorem bd_reachable {env : Env} {app : AppData} (h : main_setup env = some app)
    (ops : List Op) : BuildDiscipline (run ops app) := by
  apply bd_run
  obtain ⟨h1, _, _, h4, _, _⟩ := main_setup_initial h
  constructor
  · intro s hs; rw [h1] at hs; simp at hs
  · intro i hi; rw [h4] at hi; simp at hi
  · intro i; rw [h4]; simp

/-! ## The order of the teardown calls -/

theorem gst_bin_remove_many_calls (hs : List (Option String)) : ∀ eng : Engine,
    (gst_bin_remove_many hs eng).calls =
      eng.calls ++ ((hs.takeWhile Option.isSome).filterMap id).map EngineCall.bin_remove := by
  induction hs with
  | nil => intro eng; simp [gst_bin_remove_many]
  | cons e rest ih =>
    intro eng
    cases e with
    | none => simp [gst_bin_remove_many]
    | some e =>
      simp only [gst_bin_remove_many, ih, gst_bin_remove, List.takeWhile_cons, Option.isSome_some,
        if_true, List.filterMap_cons_some (rfl : id (some e) = some e), List.map_cons,
        List.append_assoc, List.singleton_append]

theorem filterMap_id_of_all_isSome : ∀ hs : List (Option String),
    hs.all Option.isSome = true →
    hs.takeWhile Option.isSome = hs ∧ hs = (hs.filterMap id).map some := by
  intro hs
  induction hs with
  | nil => intro _; exact ⟨rfl, rfl⟩
  | cons e rest ih =>
    intro h
    simp only [List.all_cons, Bool.and_eq_true] at h
    obtain ⟨h1, h2⟩ := ih h.2
    cases e with
    | none => simp at h
    | some e =>
      refine ⟨by simp [List.takeWhile_cons, h1], ?_⟩
      rw [List.filterMap_cons_some (rfl : id (some e) = some e), List.map_cons, ← h2]

/-- The engine calls of `remove_source_idle` for an active record that holds both
mixer pads, in the order in which they are issued. -/
theorem remove_source_idle_calls {source_id : Int} {app : AppData} {idx : Nat}
    {s : VideoSource} {vp ap : String}
    (hf : find_source app.sources source_id = some (idx, s)) (ha : s.active = true)
    (hvp : s.video_sink_pad = some vp) (hap : s.audio_sink_pad = some ap) :
    (remove_source_idle source_id app).2.engine.calls =
      app.engine.calls ++
        [EngineCall.pad_unlink (gst_element_get_static_pad s.clocksync "src")
           { element := "videomixer", pad := vp },
         EngineCall.release_request_pad "videomixer" vp,
         EngineCall.pad_unlink (gst_element_get_static_pad s.audioresample "src")
           { element := "audiomixer", pad := ap },
         EngineCall.release_request_pad "audiomixer" ap] ++
        (((chain_handles s).takeWhile Option.isSome).filterMap id).map
          EngineCall.bin_remove := by
  have hv : drop_video_pad s app.engine =
      ({ s with video_sink_pad := none },
        release_video_pad vp
          (gst_pad_unlink (gst_element_get_static_pad s.clocksync "src")
            { element := "videomixer", pad := vp } app.engine)) := by
    unfold drop_video_pad
    rw [hvp]
  have hau : ∀ eng : Engine, drop_audio_pad { s with video_sink_pad := none } eng =
      ({ s with video_sink_pad := none, audio_sink_pad := none },
        release_audio_pad ap
          (gst_pad_unlink (gst_element_get_static_pad s.audioresample "src")
            { element := "audiomixer", pad := ap } eng)) := by
    intro eng
    unfold drop_audio_pad
    simp only [hap]
  unfold remove_source_idle
  rw [hf]
  dsimp only
  rw [if_neg (by simp [ha]), hv]
  dsimp only
  rw [hau]
  show (gst_bin_remove_many (chain_handles s) _).calls = _
  rw [gst_bin_remove_many_calls]
  simp [release_audio_pad, release_video_pad, gst_pad_unlink]

set_option maxRecDepth 8000 in
/-- C14 as stated fails: the two mixer-facing pads are not both unlinked before the
mixer pads are released.  For source 0 after `two_clips`, `remove_source_idle`
issues exactly `teardown_calls`: the video mixer pad is released (second call)
before the audio pad is unlinked (third call). -/
theorem teardown_releases_video_before_unlinking_audio :
    (run two_clips app_ready).sources[0]? = some clip_record ∧
    (remove_source_idle 0 (run two_clips app_ready)).2.engine.calls =
      (run two_clips app_ready).engine.calls ++ teardown_calls ∧
    teardown_calls[1]? = some (EngineCall.release_request_pad "videomixer" "sink_0") ∧
    teardown_calls[2]? =
      some (EngineCall.pad_unlink (some { element := "audioresample_0", pad := "src" })
        { element := "audiomixer", pad := "sink_0" }) := by
  decide

/-- C14 amended: in every reachable state, for an active source holding both mixer
pads, `remove_source_idle` issues its engine calls in this order: the video
pad is unlinked and then released back to the video mixer, next the audio pad
is unlinked and then released back to the audio mixer, then the ten chain
nodes are detached from the pipeline in the order of the `gst_bin_remove_many`
call, and nothing else; the record that is left has all node handles and both
pads cleared and is inactive.  Each pad is unlinked before it is released and
is not named by any later call. -/
theorem teardown_call_order (env0 : Env) (app0 : AppData) (ops : List Op)
    (h0 : main_setup env0 = some app0) (app : AppData) (happ : app = run ops app0)
    (idx : Nat) (s : VideoSource) (vp ap : String)
    (hs : app.sources[idx]? = some s) (ha : s.active = true)
    (hvp : s.video_sink_pad = some vp) (hap : s.audio_sink_pad = some ap) :
    (remove_source_idle s.id app).2.engine.calls =
      app.engine.calls ++
        [EngineCall.pad_unlink (gst_element_get_static_pad s.clocksync "src")
           { element := "videomixer", pad := vp },
         EngineCall.release_request_pad "videomixer" vp,
         EngineCall.pad_unlink (gst_element_get_static_pad s.audioresample "src")
           { element := "audiomixer", pad := ap },
         EngineCall.release_request_pad "audiomixer" ap] ++
        (chain_nodes s).map EngineCall.bin_remove ∧
    chain_handles s = (chain_nodes s).map some ∧
    (chain_nodes s).length = 10 ∧
    (remove_source_idle s.id app).2.sources[idx]? =
      some (clear_handles { s with video_sink_pad := none, audio_sink_pad := none }) ∧
    chain_handles (clear_handles { s with video_sink_pad := none, audio_sink_pad := none }) =
      List.replicate 10 none ∧
    (clear_handles { s with video_sink_pad := none, audio_sink_pad := none }).active = false := by
  have wf : WellFormed app := happ ▸ wf_reachable h0 ops
  have bd : BuildDiscipline app := happ ▸ bd_reachable h0 ops
  have hf := find_source_of_ids wf.ids hs
  have hall := bd.handles s (List.getElem?_mem hs) ha
  obtain ⟨ht, hmap⟩ := filterMap_id_of_all_isSome (chain_handles s) hall
  have hlt : idx < app.sources.length := by
    rcases Nat.lt_or_ge idx app.sources.length with h | h
    · exact h
    · rw [List.getElem?_eq_none h] at hs; simp at hs
  obtain ⟨eng', he, _, _⟩ := remove_source_idle_active hf ha
  refine ⟨?_, hmap, ?_, ?_, rfl, rfl⟩
  · rw [remove_source_idle_calls hf ha hvp hap, ht]
    rfl
  · have hlen := congrArg List.length hmap
    simp only [List.length_map] at hlen
    show (List.filterMap id (chain_handles s)).length = 10
    rw [← hlen]
    rfl
  · rw [he]
    simp only [store_source]
    exact List.getElem?_set_eq_of_lt _ hlt

set_option maxRecDepth 8000 in
theorem teardown_call_order_witness :
    (run two_clips app_ready).sources[0]? = some clip_record ∧
    (remove_source_idle 0 (run two_clips app_ready)).2.engine.calls =
      (run two_clips app_ready).engine.calls ++ teardown_calls ∧
    chain_nodes clip_record =
      ["source_0", "decodebin_0", "queue_video_0", "videoconvert_0", "videoscale_0",
       "capsfilter_0", "clocksync_0", "queue_audio_0", "audioconvert_0", "audioresample_0"] := by
  have h := teardown_call_order env_ok app_ready two_clips (by decide)
    (run two_clips app_ready) rfl 0 clip_record "sink_0" "sink_0"
    (by decide) (by decide) (by decide) (by decide)
  refine ⟨by decide, ?_, by decide⟩
  have h1 := h.1
  rw [List.append_assoc] at h1
  exact h1

end VideoCompositor
